import Mathlib

/-!
# Resilience wrappers of `serviceA.js`

A shallow embedding of the wrappers `circuitBreaker`, `withRetry` and
`withTimeout` of `src/serviceA.js`, together with the module-level
`circuitBreakerState` and the options of `apiLimiter`, and theorems about
them. The rate-limiting middleware itself comes from the package
`express-rate-limit`; its admission rule is modelled from the specification.

Conventions of the embedding.

* JavaScript numbers that hold counters and millisecond clock readings are
  integers (`Int`); the development does not cover values outside the range in
  which a JavaScript number is an exact integer.
* An asynchronous operation `requestFn` is a state-passing function
  `σ → Except ε α × σ`: called on the state `w` of whatever it closes over, it
  settles with a value (`.ok`) or a thrown value (`.error`) and leaves a new
  closure state. Every call of `requestFn` made by a wrapper is recorded in an
  `invocations` counter of the result.
* `Date.now()` is an input: each place where the source reads the clock takes
  the reading as an argument.
* Calls of one guarded function that overlap interleave only where the source
  awaits: the part of a call before the `await` of line 32 and the part after
  it each run without interruption (`Overlap.step`).
* Time passes only while a call waits: code that runs without awaiting takes
  no time. A callback passed to `setTimeout` with a delay of `ms` milliseconds
  is due `setTimeout.effectiveDelay ms` milliseconds later (the platform runs a
  delay below 1 or above `2^31 - 1` as 1 millisecond), and callbacks due at the
  same millisecond run in the order in which they were registered.
-/

namespace ServiceA

/-! ## Thrown values -/

/-- A value a wrapper can throw: an `Error` object the wrapper itself creates with
`new Error(message)`, or the value thrown by the wrapped operation, passed on
as it is. -/
inductive Thrown (ε : Type) where
  | newError (message : String) : Thrown ε
  | raised (err : ε) : Thrown ε
  deriving DecidableEq, Repr

/-- The error of line 27: `new Error('Service unavailable (Circuit Breaker open)')`. -/
def circuitOpenError {ε : Type} : Thrown ε :=
  Thrown.newError "Service unavailable (Circuit Breaker open)"

/-- The error of line 79: `new Error('Request timed out')`. -/
def timeoutError {ε : Type} : Thrown ε :=
  Thrown.newError "Request timed out"

/-! ## Circuit breaker (lines 10-46) -/

/-- The object `circuitBreakerState` of lines 11-17; `lastFailureTime` is `none`
for JavaScript `null`. -/
structure CircuitState where
  isOpen : Bool
  lastFailureTime : Option Int
  failureCount : Int
  failureThreshold : Int
  resetTimeout : Int
  deriving DecidableEq, Repr

/-- The initial value of the module-level variable (lines 11-17). -/
def circuitBreakerState : CircuitState :=
  { isOpen := false
    lastFailureTime := none
    failureCount := 0
    failureThreshold := 3
    resetTimeout := 10000 }

/-- The numeric value of `lastFailureTime` in `now - lastFailureTime`: `null`
converts to `0`. -/
def CircuitState.lastFailureNum (s : CircuitState) : Int :=
  s.lastFailureTime.getD 0

/-- Lines 21-29, the gate in front of the operation. `now` is the reading of
`Date.now()` at line 22 (only consulted when the circuit is open). The result
is the state with which the call goes on to line 31, or the thrown error. -/
def circuitBreaker.gate {ε : Type} (s : CircuitState) (now : Int) :
    Except (Thrown ε) CircuitState :=
  if s.isOpen then
    if now - s.lastFailureNum > s.resetTimeout then
      .ok { s with isOpen := false }
    else
      .error circuitOpenError
  else
    .ok s

/-- Lines 31-44, what happens once the awaited operation has settled with
`outcome`. `failTime` is the reading of `Date.now()` at line 37 (only consulted
when the operation failed). -/
def circuitBreaker.settle {ε α : Type} (s : CircuitState) (outcome : Except ε α)
    (failTime : Int) : CircuitState × Except (Thrown ε) α :=
  match outcome with
  | .ok result => ({ s with failureCount := 0 }, .ok result)
  | .error err =>
    let s1 := { s with failureCount := s.failureCount + 1 }
    let s2 := { s1 with lastFailureTime := some failTime }
    let s3 := if s2.failureCount ≥ s2.failureThreshold then { s2 with isOpen := true } else s2
    (s3, .error (Thrown.raised err))

/-- What one call of the function returned by `circuitBreaker(requestFn)` leaves
behind. -/
structure GuardedCall (σ ε α : Type) where
  /-- The value of `circuitBreakerState` when the call has settled. -/
  state : CircuitState
  /-- How the returned promise settles. -/
  result : Except (Thrown ε) α
  /-- The closure state of the operation afterwards. -/
  opState : σ
  /-- How many times `requestFn` was called. -/
  invocations : Nat
  /-- The value of `circuitBreakerState` at the moment `requestFn` was called
  (line 32), if it was. -/
  stateAtInvoke : Option CircuitState

/-- One sequential call of the function returned by `circuitBreaker(requestFn)`
(lines 20-45), started in circuit state `s` with the operation's closure state
`w`. -/
def circuitBreaker {σ ε α : Type} (requestFn : σ → Except ε α × σ)
    (s : CircuitState) (now failTime : Int) (w : σ) : GuardedCall σ ε α :=
  match circuitBreaker.gate s now with
  | .error e =>
    { state := s, result := .error e, opState := w, invocations := 0, stateAtInvoke := none }
  | .ok s1 =>
    let out := requestFn w
    let fin := circuitBreaker.settle s1 out.1 failTime
    { state := fin.1, result := fin.2, opState := out.2, invocations := 1,
      stateAtInvoke := some s1 }

/-- The clock readings of one guarded call: `now` for line 22, `failTime` for
line 37. -/
structure CallTimes where
  now : Int
  failTime : Int
  deriving DecidableEq, Repr

/-- What a sequence of guarded calls leaves behind. -/
structure CallsRun (σ : Type) where
  state : CircuitState
  opState : σ
  invocations : Nat

/-- A sequence of guarded calls of one operation, each settled before the next
starts. -/
def circuitBreaker.calls {σ ε α : Type} (requestFn : σ → Except ε α × σ) :
    CircuitState → σ → List CallTimes → CallsRun σ
  | s, w, [] => { state := s, opState := w, invocations := 0 }
  | s, w, t :: ts =>
    let r := circuitBreaker requestFn s t.now t.failTime w
    let rest := circuitBreaker.calls requestFn r.state r.opState ts
    { rest with invocations := r.invocations + rest.invocations }

/-- The circuit states that sequential guarded calls (of any operations, at any
clock readings) can produce from the initial state. -/
inductive Reachable : CircuitState → Prop where
  | init : Reachable circuitBreakerState
  | call {σ ε α : Type} (requestFn : σ → Except ε α × σ) (s : CircuitState)
      (now failTime : Int) (w : σ) :
      Reachable s → Reachable (circuitBreaker requestFn s now failTime w).state

/-! ## Retry (lines 48-62) -/

/-- What `withRetry` does that can be observed from outside, in order. -/
inductive RetryEvent where
  /-- The call `requestFn()` of line 54. -/
  | invoked : RetryEvent
  /-- The `console.log` of line 58, with the value of `attempt` it prints. -/
  | logged (attempt : Int) : RetryEvent
  /-- The awaited `setTimeout(resolve, delay)` of line 59. -/
  | delayed (ms : Int) : RetryEvent
  deriving DecidableEq, Repr

/-- Is the event a call of the operation? -/
def RetryEvent.isInvoked : RetryEvent → Bool
  | .invoked => true
  | _ => false

/-- Is the event an inter-attempt delay? -/
def RetryEvent.isDelayed : RetryEvent → Bool
  | .delayed _ => true
  | _ => false

/-- What one call of `withRetry` leaves behind. `result` is `.ok (some v)` when the
promise resolves with the operation's value `v`, `.ok none` when it resolves
with `undefined` (the loop ends without a `return`), `.error err` when it
rejects. -/
structure RetryRun (σ ε α : Type) where
  result : Except ε (Option α)
  opState : σ
  trace : List RetryEvent

/-- The number of calls of the operation in a run. -/
def RetryRun.invocations {σ ε α : Type} (r : RetryRun σ ε α) : Nat :=
  r.trace.countP RetryEvent.isInvoked

/-- The number of inter-attempt delays waited in a run. -/
def RetryRun.delays {σ ε α : Type} (r : RetryRun σ ε α) : Nat :=
  r.trace.countP RetryEvent.isDelayed

/-- The `while` loop of lines 52-61, entered with the current value of `attempt`
and the operation's closure state `w`. -/
def withRetry.loop {σ ε α : Type} (requestFn : σ → Except ε α × σ)
    (maxRetries delay : Int) (attempt : Int) (w : σ) : RetryRun σ ε α :=
  if attempt < maxRetries then
    match requestFn w with
    | (.ok result, w1) =>
      { result := .ok (some result), opState := w1, trace := [RetryEvent.invoked] }
    | (.error err, w1) =>
      if attempt + 1 ≥ maxRetries then
        { result := .error err, opState := w1, trace := [RetryEvent.invoked] }
      else
        let rest := withRetry.loop requestFn maxRetries delay (attempt + 1) w1
        { rest with
          trace := RetryEvent.invoked :: RetryEvent.logged (attempt + 1) ::
            RetryEvent.delayed delay :: rest.trace }
  else
    { result := .ok none, opState := w, trace := [] }
termination_by (maxRetries - attempt).toNat
decreasing_by omega

/-- The function `withRetry(requestFn, maxRetries = 3, delay = 1000)` of lines
49-62: `attempt` starts at `0`. -/
def withRetry {σ ε α : Type} (requestFn : σ → Except ε α × σ) (w : σ)
    (maxRetries : Int := 3) (delay : Int := 1000) : RetryRun σ ε α :=
  withRetry.loop requestFn maxRetries delay 0 w

/-- The closure state of the operation after `n` calls of it, starting from `w`. -/
def opStateAfter {σ ε α : Type} (requestFn : σ → Except ε α × σ) : Nat → σ → σ
  | 0, w => w
  | n + 1, w => opStateAfter requestFn n (requestFn w).2

/-- How call number `n + 1` of the operation settles (calls are counted from the
closure state `w`). -/
def nthOutcome {σ ε α : Type} (requestFn : σ → Except ε α × σ) (n : Nat) (w : σ) :
    Except ε α :=
  (requestFn (opStateAfter requestFn n w)).1

/-- The events of a run of the loop that is entered with `attempt` and makes
`k` failed calls, each followed by a log line and a delay, and then one last
call. -/
def retryTrace (delay : Int) : Int → Nat → List RetryEvent
  | _, 0 => [RetryEvent.invoked]
  | attempt, k + 1 =>
    RetryEvent.invoked :: RetryEvent.logged (attempt + 1) :: RetryEvent.delayed delay ::
      retryTrace delay (attempt + 1) k

/-- The operation of the `/retry` endpoint (lines 112-119); the closure state is
the counter `attempts`, values and errors are their message texts. -/
def retryDemoOp (attempts : Nat) : Except String String × Nat :=
  let attempts := attempts + 1
  if attempts < 3 then
    (.error "Temporary failure", attempts)
  else
    (.ok ("Success after " ++ toString attempts ++ " attempts"), attempts)

/-- The call of `withRetry` made by the `/retry` endpoint (lines 110-119):
`attempts` starts at `0`, `maxRetries` and `delay` take their defaults. -/
def retryDemo : RetryRun Nat String String :=
  withRetry retryDemoOp 0

/-! ## Timeout (lines 74-88) -/

/-- When the promise returned by the wrapped operation settles, counted from the
call of line 82: within the turn of the event loop that made the call (an
`async` function that returns without waiting for a timer or for I/O; its
reactions run before any timer callback), or in a later turn, `d` milliseconds
after the call. -/
inductive Settles where
  | sameTurn : Settles
  | afterMs (d : Nat) : Settles
  deriving DecidableEq, Repr

/-- Milliseconds between the call of the operation and its settling. -/
def Settles.ms : Settles → Nat
  | .sameTurn => 0
  | .afterMs d => d

/-- One call of an asynchronous operation as the timeout wrapper sees it: when
its promise settles and how. -/
structure TimedOp (ε α : Type) where
  settles : Settles
  outcome : Except ε α

/-- The promise created at line 77 and the timer of line 78. `settled` is `none`
while the promise is pending, and otherwise the time (milliseconds after the
call) and the way it settled. -/
structure Race (ε α : Type) where
  settled : Option (Nat × Except (Thrown ε) α)
  timerArmed : Bool

/-- A call of `resolve` or `reject` of the promise: only the first one has an
effect. -/
def Race.settleWith {ε α : Type} (r : Race ε α) (time : Nat) (x : Except (Thrown ε) α) :
    Race ε α :=
  match r.settled with
  | none => { r with settled := some (time, x) }
  | some _ => r

/-- The two callbacks that the event loop can run. -/
inductive RaceEvent (ε α : Type) where
  /-- The timer of lines 78-80 is due. -/
  | timerDue (time : Nat) : RaceEvent ε α
  /-- The operation's promise has settled: the reactions of lines 83-85 run. -/
  | opSettled (time : Nat) (outcome : Except ε α) : RaceEvent ε α

/-- Running one callback. A due timer that was not cleared calls `reject` with the
timeout error (line 79); a settled operation calls `resolve` with its value
(line 83) or `reject` with its error (line 84), then clears the timer (line
85). -/
def Race.step {ε α : Type} (r : Race ε α) : RaceEvent ε α → Race ε α
  | .timerDue time =>
    if r.timerArmed then
      { r.settleWith time (.error timeoutError) with timerArmed := false }
    else r
  | .opSettled time outcome =>
    match outcome with
    | .ok v => { r.settleWith time (.ok v) with timerArmed := false }
    | .error err => { r.settleWith time (.error (Thrown.raised err)) with timerArmed := false }

/-- The largest delay that `setTimeout` takes as it is, `2^31 - 1` milliseconds. -/
def setTimeout.TIMEOUT_MAX : Nat := 2147483647

/-- The delay after which the platform (Node) runs a callback passed to
`setTimeout(callback, ms)`. Line 78 hands `timeout` over unchecked, and
`setTimeout` takes a delay as it is only when `1 ≤ ms ≤ 2^31 - 1`; any other
delay, `0` and everything above `2^31 - 1` included, is run as 1
millisecond. -/
def setTimeout.effectiveDelay (ms : Nat) : Nat :=
  if 1 ≤ ms ∧ ms ≤ setTimeout.TIMEOUT_MAX then ms else 1

/-- The order in which the event loop runs the two callbacks, and when. The timer
of line 78 is due `setTimeout.effectiveDelay timeout` milliseconds after the
call. It is registered (line 78) before the operation is called (line 82), so
of two callbacks due at the same millisecond in a later turn the timer's runs
first; reactions to a promise that settles within the calling turn run before
any timer callback. -/
def withTimeout.schedule {ε α : Type} (op : TimedOp ε α) (timeout : Nat) :
    List (RaceEvent ε α) :=
  match op.settles with
  | .sameTurn =>
    [RaceEvent.opSettled 0 op.outcome, RaceEvent.timerDue (setTimeout.effectiveDelay timeout)]
  | .afterMs d =>
    if setTimeout.effectiveDelay timeout ≤ d then
      [RaceEvent.timerDue (setTimeout.effectiveDelay timeout), RaceEvent.opSettled d op.outcome]
    else
      [RaceEvent.opSettled d op.outcome, RaceEvent.timerDue (setTimeout.effectiveDelay timeout)]

/-- One call of the function returned by `withTimeout(requestFn, timeout = 5000)`
(lines 75-88) on an operation call `op`: the promise and the timer once both
callbacks have had their turn. -/
def withTimeout {ε α : Type} (op : TimedOp ε α) (timeout : Nat := 5000) : Race ε α :=
  (withTimeout.schedule op timeout).foldl Race.step { settled := none, timerArmed := true }

/-- The call made by the `/timeout` endpoint (lines 129-133): the operation waits
6000 ms and resolves, the timeout is 3000 ms. -/
def timeoutDemo : Race String String :=
  withTimeout { settles := Settles.afterMs 6000, outcome := .ok "This should timeout" } 3000

/-! ## Circuit breaker: several wrapped functions, overlapping calls -/

/-- Sequential calls of `circuitBreaker(f)` followed by one call of
`circuitBreaker(g)`. The function returned by `circuitBreaker` (lines 20-45)
keeps nothing of its own besides `requestFn`: every wrapped function reads and
writes the one variable `circuitBreakerState` of line 11, so the call of the
second function starts in the state the calls of the first one left. -/
def circuitBreaker.callsThen {σ τ ε δ α β : Type} (f : σ → Except ε α × σ)
    (g : τ → Except δ β × τ) (s : CircuitState) (wf : σ) (wg : τ)
    (ts : List CallTimes) (t : CallTimes) : GuardedCall τ δ β :=
  circuitBreaker g (circuitBreaker.calls f s wf ts).state t.now t.failTime wg

/-- What the event loop can do next with calls of one guarded function that
overlap. The body of the returned function runs without interruption from its
start up to the `await` of line 32, and again from the settling of the awaited
promise to its end. -/
inductive CallEvent (ε α : Type) where
  /-- A new call starts at clock reading `now`: lines 21-32 run, up to the
  `await`. -/
  | arrive (now : Int) : CallEvent ε α
  /-- The operation of one call in flight settles: lines 33-44 run. -/
  | settled (outcome : Except ε α) (failTime : Int) : CallEvent ε α

/-- The circuit state together with a count of what overlapping calls have done so
far. -/
structure Overlap where
  /-- The current value of `circuitBreakerState`. -/
  state : CircuitState
  /-- Calls that have called the operation and are waiting for it. -/
  inFlight : Nat
  /-- Calls of the operation made so far. -/
  invocations : Nat
  /-- Calls that ended at the `throw` of line 27. -/
  shortCircuited : Nat
  deriving DecidableEq, Repr

/-- One step of the event loop. An arriving call runs the gate on the current
state and, unless it throws, calls the operation (line 32) and waits; a
settling operation runs lines 33-44 on the state as it is by then. -/
def Overlap.step {ε α : Type} (c : Overlap) : CallEvent ε α → Overlap
  | .arrive now =>
    match circuitBreaker.gate (ε := ε) c.state now with
    | .error _ => { c with shortCircuited := c.shortCircuited + 1 }
    | .ok s1 =>
      { c with state := s1, inFlight := c.inFlight + 1, invocations := c.invocations + 1 }
  | .settled outcome failTime =>
    if c.inFlight = 0 then c
    else
      { c with state := (circuitBreaker.settle c.state outcome failTime).1,
               inFlight := c.inFlight - 1 }

/-- A schedule of the event loop, run from no call in flight. -/
def Overlap.run {ε α : Type} (s : CircuitState) (events : List (CallEvent ε α)) : Overlap :=
  events.foldl Overlap.step { state := s, inFlight := 0, invocations := 0, shortCircuited := 0 }

/-! ## Retry around the circuit breaker -/

/-- Everything a guarded function reads and writes when it is called again and
again: the circuit state, the closure state of the operation, and how many
guarded calls and operation calls have been made. -/
structure GuardedWorld (σ : Type) where
  circuit : CircuitState
  opState : σ
  guardedCalls : Nat
  opCalls : Nat

/-- The function `circuitBreaker(requestFn)` as an operation that another wrapper
can call: `clock i` holds the clock readings of guarded call number `i + 1`. -/
def circuitBreaker.asRequestFn {σ ε α : Type} (requestFn : σ → Except ε α × σ)
    (clock : Nat → CallTimes) (g : GuardedWorld σ) : Except (Thrown ε) α × GuardedWorld σ :=
  let r := circuitBreaker requestFn g.circuit (clock g.guardedCalls).now
    (clock g.guardedCalls).failTime g.opState
  (r.result,
    { circuit := r.state, opState := r.opState, guardedCalls := g.guardedCalls + 1,
      opCalls := g.opCalls + r.invocations })

/-! ## Failure count along a run -/

/-- What each call of a run of sequential guarded calls did with the operation:
`none` for a short-circuited call, `some true` for a call whose operation
succeeded, `some false` for one whose operation failed. -/
def circuitBreaker.callLog {σ ε α : Type} (requestFn : σ → Except ε α × σ) :
    CircuitState → σ → List CallTimes → List (Option Bool)
  | _, _, [] => []
  | s, w, t :: ts =>
    let r := circuitBreaker requestFn s t.now t.failTime w
    (if r.invocations = 0 then none
      else match r.result with
        | .ok _ => some true
        | .error _ => some false) ::
      circuitBreaker.callLog requestFn r.state r.opState ts

/-- The number of operation calls that failed since the most recent operation call
that succeeded, or since the start when none succeeded; short-circuited calls
are no operation calls. -/
def consecutiveFailures (log : List (Option Bool)) : Nat :=
  ((log.filterMap id).reverse.takeWhile (fun ok => !ok)).length

/-! ## Rate limiter (lines 64-72) -/

/-- The options object passed to `rateLimit` at lines 65-69. -/
structure RateLimitOptions where
  windowMs : Int
  max : Nat
  message : String
  deriving DecidableEq, Repr

/-- The options of `apiLimiter` (lines 66-68). -/
def apiLimiterOptions : RateLimitOptions :=
  { windowMs := 15 * 60 * 1000
    max := 5
    message := "Too many requests from this IP, please try again after 15 minutes" }

/-- Modelled from the spec: the `RateLimitWindow` of section 3, the record kept
per client identity by the middleware that `rateLimit` returns (the package
`express-rate-limit` is not among the sources). `count` is the number of
requests admitted in the window that started at `windowStart`; the duration
and the limit are the options. -/
structure RateLimitWindow where
  windowStart : Int
  count : Nat
  deriving DecidableEq, Repr

/-- The answer of the rate limiter to one request. -/
inductive Admission where
  | admitted : Admission
  | rejected (message : String) : Admission
  deriving DecidableEq, Repr

/-- Is the request let through? -/
def Admission.isAdmitted : Admission → Bool
  | .admitted => true
  | .rejected _ => false

/-- Modelled from the spec: the admission decision of the middleware that
`rateLimit` returns, for one client (sections 3, 4.4 and 8; the package
`express-rate-limit` is not among the sources). Fixed window: the first
request of a client, or a request that comes when the window has elapsed,
starts a new window with `count = 1`; inside the window a request is admitted
while fewer than `max` were, and otherwise rejected with the fixed message,
without being counted. -/
def rateLimit.admission (opts : RateLimitOptions) (window : Option RateLimitWindow) (now : Int) :
    Admission × RateLimitWindow :=
  match window with
  | none => (Admission.admitted, { windowStart := now, count := 1 })
  | some win =>
    if now - win.windowStart ≥ opts.windowMs then
      (Admission.admitted, { windowStart := now, count := 1 })
    else if win.count < opts.max then
      (Admission.admitted, { win with count := win.count + 1 })
    else
      (Admission.rejected opts.message, win)

/-- Modelled from the spec: the requests of one client, in order, each at its
arrival time (section 4.4; the package `express-rate-limit` is not among the
sources). The result is the list of answers and the client's window at the
end. -/
def rateLimit.requests (opts : RateLimitOptions) :
    Option RateLimitWindow → List Int → List Admission × Option RateLimitWindow
  | window, [] => ([], window)
  | window, now :: rest =>
    let r := rateLimit.admission opts window now
    let tail := rateLimit.requests opts (some r.2) rest
    (r.1 :: tail.1, tail.2)

/-- Modelled from the spec: the middleware with its store keyed by client identity
(section 4.4: per client identity, by default the source address; the package
`express-rate-limit` is not among the sources). A request of client `key`
consults and updates the window of that client only. -/
def rateLimit.handle (opts : RateLimitOptions) (store : String → Option RateLimitWindow)
    (key : String) (now : Int) : Admission × (String → Option RateLimitWindow) :=
  let r := rateLimit.admission opts (store key) now
  (r.1, fun k => if k = key then some r.2 else store k)

end ServiceA


/-! # Theorems -/

namespace ServiceA

/-! ## Circuit breaker: single calls -/

/-- A call that meets an open circuit inside the cool-down throws at the gate. -/
theorem gate_shortCircuit {ε : Type} (s : CircuitState) (now : Int)
    (hopen : s.isOpen = true) (hcool : now - s.lastFailureNum ≤ s.resetTimeout) :
    circuitBreaker.gate (ε := ε) s now = .error circuitOpenError := by
  have h : ¬ (now - s.lastFailureNum > s.resetTimeout) := by omega
  simp [circuitBreaker.gate, hopen, h]

/-- A call that meets an open circuit after the cool-down passes the gate with
`isOpen` set to `false`. -/
theorem gate_probe {ε : Type} (s : CircuitState) (now : Int)
    (hopen : s.isOpen = true) (hpast : now - s.lastFailureNum > s.resetTimeout) :
    circuitBreaker.gate (ε := ε) s now = .ok { s with isOpen := false } := by
  simp [circuitBreaker.gate, hopen, hpast]

/-- A call that meets a closed circuit passes the gate with the state as it is. -/
theorem gate_closed {ε : Type} (s : CircuitState) (now : Int) (hclosed : s.isOpen = false) :
    circuitBreaker.gate (ε := ε) s now = .ok s := by
  simp [circuitBreaker.gate, hclosed]

/-- A short-circuited call in full. -/
theorem circuitBreaker_shortCircuit {σ ε α : Type} (requestFn : σ → Except ε α × σ)
    (s : CircuitState) (now failTime : Int) (w : σ)
    (hopen : s.isOpen = true) (hcool : now - s.lastFailureNum ≤ s.resetTimeout) :
    circuitBreaker requestFn s now failTime w =
      { state := s, result := .error circuitOpenError, opState := w, invocations := 0,
        stateAtInvoke := none } := by
  simp [circuitBreaker, gate_shortCircuit s now hopen hcool]

/-- A call that passes the gate with state `s1`, in full. -/
theorem circuitBreaker_of_gate_ok {σ ε α : Type} (requestFn : σ → Except ε α × σ)
    (s s1 : CircuitState) (now failTime : Int) (w : σ)
    (hgate : circuitBreaker.gate (ε := ε) s now = .ok s1) :
    circuitBreaker requestFn s now failTime w =
      { state := (circuitBreaker.settle s1 (requestFn w).1 failTime).1,
        result := (circuitBreaker.settle s1 (requestFn w).1 failTime).2,
        opState := (requestFn w).2, invocations := 1, stateAtInvoke := some s1 } := by
  simp [circuitBreaker, hgate]

/-- The state after a failed operation call that passed the gate with `s1`. -/
theorem settle_error {ε α : Type} (s1 : CircuitState) (err : ε) (failTime : Int) :
    circuitBreaker.settle (α := α) s1 (.error err) failTime =
      (if s1.failureCount + 1 ≥ s1.failureThreshold then
          { s1 with failureCount := s1.failureCount + 1, lastFailureTime := some failTime,
                    isOpen := true }
        else
          { s1 with failureCount := s1.failureCount + 1, lastFailureTime := some failTime },
        .error (Thrown.raised err)) := by
  simp only [circuitBreaker.settle]

/-- The state after a successful operation call that passed the gate with `s1`. -/
theorem settle_ok {ε α : Type} (s1 : CircuitState) (v : α) (failTime : Int) :
    circuitBreaker.settle (ε := ε) s1 (.ok v) failTime =
      ({ s1 with failureCount := 0 }, .ok v) := rfl

/-! ## Circuit breaker: what sequential calls preserve -/

/-- The property of a circuit state that sequential calls keep: the configuration
is the initial one, and an open circuit has recorded at least `failureThreshold`
failures and the time of the last one. -/
theorem reachable_inv (s : CircuitState) (h : Reachable s) :
    s.failureThreshold = 3 ∧ s.resetTimeout = 10000 ∧
      (s.isOpen = true → s.failureThreshold ≤ s.failureCount ∧ s.lastFailureTime ≠ none) := by
  induction h with
  | init => simp [circuitBreakerState]
  | @call σ ε α requestFn s now failTime w _ ih =>
    obtain ⟨hth, hrt, hopen⟩ := ih
    cases hg : circuitBreaker.gate (ε := ε) s now with
    | error e =>
      have hs : (circuitBreaker requestFn s now failTime w).state = s := by
        simp [circuitBreaker, hg]
      rw [hs]
      exact ⟨hth, hrt, hopen⟩
    | ok s1 =>
      rw [circuitBreaker_of_gate_ok requestFn s s1 now failTime w hg]
      have hs1 : s1.failureThreshold = 3 ∧ s1.resetTimeout = 10000 ∧
          s1.failureCount = s.failureCount ∧ s1.isOpen = false ∧
          (s.isOpen = true → s.failureThreshold ≤ s.failureCount) := by
        unfold circuitBreaker.gate at hg
        split at hg
        · split at hg
          · cases hg
            exact ⟨hth, hrt, rfl, rfl, fun h => (hopen h).1⟩
          · cases hg
        · cases hg
          refine ⟨hth, hrt, rfl, ?_, fun h => (hopen h).1⟩
          simpa using ‹¬ s.isOpen = true›
      obtain ⟨h1, h2, _, h4, _⟩ := hs1
      cases hout : (requestFn w).1 with
      | ok v =>
        simp [settle_ok, h1, h2, h4]
      | error err =>
        rw [settle_error]
        split
        · rename_i hge
          simp only [h1] at hge
          simp [h1, h2]
          omega
        · simp [h1, h2, h4]

/-- A run of sequential guarded calls leads from reachable states to reachable
states. -/
theorem calls_reachable {σ ε α : Type} (requestFn : σ → Except ε α × σ) :
    ∀ (ts : List CallTimes) (s : CircuitState) (w : σ),
      Reachable s → Reachable (circuitBreaker.calls requestFn s w ts).state := by
  intro ts
  induction ts with
  | nil =>
    intro s w h
    simpa [circuitBreaker.calls] using h
  | cons t ts ih =>
    intro s w h
    simp only [circuitBreaker.calls]
    exact ih _ _ (Reachable.call requestFn s t.now t.failTime w h)

/-- One guarded call of an operation that fails, from a state in which the
circuit is open exactly when the threshold is reached: the failure count grows
by the number of operation calls, and the state is again of that kind. -/
theorem call_failing {σ ε α : Type} (requestFn : σ → Except ε α × σ)
    (hfail : ∀ w, ∃ err, (requestFn w).1 = .error err)
    (s : CircuitState) (now failTime : Int) (w : σ)
    (hinv : s.isOpen = true ↔ s.failureThreshold ≤ s.failureCount) :
    (circuitBreaker requestFn s now failTime w).state.failureCount =
        s.failureCount + (circuitBreaker requestFn s now failTime w).invocations ∧
      (circuitBreaker requestFn s now failTime w).state.failureThreshold = s.failureThreshold ∧
      ((circuitBreaker requestFn s now failTime w).state.isOpen = true ↔
        (circuitBreaker requestFn s now failTime w).state.failureThreshold ≤
          (circuitBreaker requestFn s now failTime w).state.failureCount) := by
  obtain ⟨err, he⟩ := hfail w
  by_cases hopen : s.isOpen = true
  · have hge := hinv.mp hopen
    by_cases hcool : now - s.lastFailureNum ≤ s.resetTimeout
    · rw [circuitBreaker_shortCircuit requestFn s now failTime w hopen hcool]
      simpa using hinv
    · rw [circuitBreaker_of_gate_ok requestFn s _ now failTime w
        (gate_probe s now hopen (by omega)), he, settle_error]
      have hge1 : s.failureCount + 1 ≥ s.failureThreshold := by omega
      simp [hge1]
  · have hclosed : s.isOpen = false := by simpa using hopen
    have hlt : ¬ s.failureThreshold ≤ s.failureCount := fun h => hopen (hinv.mpr h)
    rw [circuitBreaker_of_gate_ok requestFn s _ now failTime w (gate_closed s now hclosed), he,
      settle_error]
    by_cases hge1 : s.failureCount + 1 ≥ s.failureThreshold
    · simp [hge1]
    · simp [hge1, hclosed]

/-- A run of guarded calls of an operation that fails: the failure count grows by
the number of operation calls, and the circuit stays open exactly when the
threshold is reached. -/
theorem calls_failing {σ ε α : Type} (requestFn : σ → Except ε α × σ)
    (hfail : ∀ w, ∃ err, (requestFn w).1 = .error err) :
    ∀ (ts : List CallTimes) (s : CircuitState) (w : σ),
      (s.isOpen = true ↔ s.failureThreshold ≤ s.failureCount) →
      (circuitBreaker.calls requestFn s w ts).state.failureCount =
          s.failureCount + (circuitBreaker.calls requestFn s w ts).invocations ∧
        (circuitBreaker.calls requestFn s w ts).state.failureThreshold = s.failureThreshold ∧
        ((circuitBreaker.calls requestFn s w ts).state.isOpen = true ↔
          (circuitBreaker.calls requestFn s w ts).state.failureThreshold ≤
            (circuitBreaker.calls requestFn s w ts).state.failureCount) := by
  intro ts
  induction ts with
  | nil =>
    intro s w hinv
    simpa [circuitBreaker.calls] using hinv
  | cons t ts ih =>
    intro s w hinv
    obtain ⟨h1, h2, h3⟩ := call_failing requestFn hfail s t.now t.failTime w hinv
    obtain ⟨k1, k2, k3⟩ := ih _ (circuitBreaker requestFn s t.now t.failTime w).opState h3
    simp only [circuitBreaker.calls]
    refine ⟨?_, ?_, k3⟩
    · rw [k1, h1]
      push_cast
      ring
    · rw [k2, h2]

/-! ## Circuit breaker: the claims -/

/-- C1. Circuit breaker trip. From the initial state, after any run of sequential
guarded calls in which every call of the operation fails, the circuit is open
exactly when the number `N` of operation calls has reached `failureThreshold`
(so `N = failureThreshold` trips it and `N = failureThreshold - 1` does not);
and once `N ≥ failureThreshold`, a next call made while
`now - lastFailureTime ≤ resetTimeout` fails with the circuit-open error and
does not call the operation. -/
theorem circuitBreaker_trips_at_threshold {σ ε α : Type} (requestFn : σ → Except ε α × σ)
    (hfail : ∀ w, ∃ err, (requestFn w).1 = .error err) (w : σ) (ts : List CallTimes) :
    (circuitBreaker.calls requestFn circuitBreakerState w ts).state.failureThreshold = 3 ∧
    ((circuitBreaker.calls requestFn circuitBreakerState w ts).state.isOpen = true ↔
      (circuitBreaker.calls requestFn circuitBreakerState w ts).state.failureThreshold ≤
        ((circuitBreaker.calls requestFn circuitBreakerState w ts).invocations : Int)) ∧
    ((circuitBreaker.calls requestFn circuitBreakerState w ts).state.failureThreshold ≤
        ((circuitBreaker.calls requestFn circuitBreakerState w ts).invocations : Int) →
      ∀ now failTime : Int,
        now - (circuitBreaker.calls requestFn circuitBreakerState w ts).state.lastFailureNum ≤
            (circuitBreaker.calls requestFn circuitBreakerState w ts).state.resetTimeout →
          (circuitBreaker requestFn
              (circuitBreaker.calls requestFn circuitBreakerState w ts).state now failTime
              (circuitBreaker.calls requestFn circuitBreakerState w ts).opState).result =
            .error circuitOpenError ∧
          (circuitBreaker requestFn
              (circuitBreaker.calls requestFn circuitBreakerState w ts).state now failTime
              (circuitBreaker.calls requestFn circuitBreakerState w ts).opState).invocations =
            0 ∧
          (circuitBreaker requestFn
              (circuitBreaker.calls requestFn circuitBreakerState w ts).state now failTime
              (circuitBreaker.calls requestFn circuitBreakerState w ts).opState).opState =
            (circuitBreaker.calls requestFn circuitBreakerState w ts).opState) := by
  obtain ⟨h1, h2, h3⟩ := calls_failing requestFn hfail ts circuitBreakerState w
    (by simp [circuitBreakerState])
  have hcount : (circuitBreaker.calls requestFn circuitBreakerState w ts).state.failureCount =
      ((circuitBreaker.calls requestFn circuitBreakerState w ts).invocations : Int) := by
    rw [h1]
    simp [circuitBreakerState]
  rw [hcount] at h3
  refine ⟨by rw [h2]; rfl, h3, ?_⟩
  intro hN now failTime hcool
  rw [circuitBreaker_shortCircuit requestFn _ now failTime _ (h3.mpr hN) hcool]
  exact ⟨rfl, rfl, rfl⟩

/-- C1, an instance: three failures at times 1, 3, 5 open the circuit, two do not,
and a call at time 10005 (exactly `resetTimeout` after the last failure) is
short-circuited. -/
theorem circuitBreaker_trips_at_threshold_witness :
    (∀ w : Unit, ∃ err, ((fun u : Unit => ((Except.error "Service B failed" : Except String Nat), u)) w).1
        = .error err) ∧
    (circuitBreaker.calls (fun u : Unit => ((Except.error "Service B failed" : Except String Nat), u))
        circuitBreakerState () [⟨0, 1⟩, ⟨2, 3⟩, ⟨4, 5⟩]).invocations = 3 ∧
    (circuitBreaker.calls (fun u : Unit => ((Except.error "Service B failed" : Except String Nat), u))
        circuitBreakerState () [⟨0, 1⟩, ⟨2, 3⟩, ⟨4, 5⟩]).state.isOpen = true ∧
    (circuitBreaker.calls (fun u : Unit => ((Except.error "Service B failed" : Except String Nat), u))
        circuitBreakerState () [⟨0, 1⟩, ⟨2, 3⟩]).state.isOpen = false ∧
    (circuitBreaker (fun u : Unit => ((Except.error "Service B failed" : Except String Nat), u))
        (circuitBreaker.calls (fun u : Unit => ((Except.error "Service B failed" : Except String Nat), u))
          circuitBreakerState () [⟨0, 1⟩, ⟨2, 3⟩, ⟨4, 5⟩]).state 10005 10006 ()).result
      = .error circuitOpenError := by
  have hfail : ∀ w : Unit, ∃ err,
      ((fun u : Unit => ((Except.error "Service B failed" : Except String Nat), u)) w).1
        = .error err := fun _ => ⟨_, rfl⟩
  have h3 := circuitBreaker_trips_at_threshold _ hfail () [⟨0, 1⟩, ⟨2, 3⟩, ⟨4, 5⟩]
  have h2 := circuitBreaker_trips_at_threshold _ hfail () [⟨0, 1⟩, ⟨2, 3⟩]
  have hn3 : (circuitBreaker.calls
      (fun u : Unit => ((Except.error "Service B failed" : Except String Nat), u))
      circuitBreakerState () [⟨0, 1⟩, ⟨2, 3⟩, ⟨4, 5⟩]).invocations = 3 := by decide
  have hn2 : (circuitBreaker.calls
      (fun u : Unit => ((Except.error "Service B failed" : Except String Nat), u))
      circuitBreakerState () [⟨0, 1⟩, ⟨2, 3⟩]).invocations = 2 := by decide
  refine ⟨hfail, hn3, ?_, ?_, ?_⟩
  · exact h3.2.1.mpr (by rw [h3.1, hn3]; decide)
  · have hnot : ¬ ((circuitBreaker.calls
        (fun u : Unit => ((Except.error "Service B failed" : Except String Nat), u))
        circuitBreakerState () [⟨0, 1⟩, ⟨2, 3⟩]).state.isOpen = true) := by
      rw [h2.2.1, h2.1, hn2]
      decide
    simpa using hnot
  · exact (h3.2.2 (by rw [h3.1, hn3]; decide) 10005 10006 (by decide)).1

/-- C2. Cool-down boundary. In a state with `isOpen = true` whose last failure was
at time `T`, a call at time `T'` with `T' - T ≤ resetTimeout` (equality
included) throws the circuit-open error and calls the operation zero times; a
call with `T' - T > resetTimeout` calls the operation exactly once. -/
theorem circuitBreaker_cooldown_boundary {σ ε α : Type} (requestFn : σ → Except ε α × σ)
    (s : CircuitState) (T T' failTime : Int) (w : σ)
    (hopen : s.isOpen = true) (hlast : s.lastFailureTime = some T) :
    (T' - T ≤ s.resetTimeout →
      (circuitBreaker requestFn s T' failTime w).result = .error circuitOpenError ∧
      (circuitBreaker requestFn s T' failTime w).invocations = 0 ∧
      (circuitBreaker requestFn s T' failTime w).opState = w) ∧
    (T' - T > s.resetTimeout →
      (circuitBreaker requestFn s T' failTime w).invocations = 1 ∧
      (circuitBreaker requestFn s T' failTime w).opState = (requestFn w).2 ∧
      (circuitBreaker requestFn s T' failTime w).result =
        (circuitBreaker.settle { s with isOpen := false } (requestFn w).1 failTime).2) := by
  have hnum : s.lastFailureNum = T := by simp [CircuitState.lastFailureNum, hlast]
  constructor
  · intro hle
    rw [circuitBreaker_shortCircuit requestFn s T' failTime w hopen (by rw [hnum]; exact hle)]
    exact ⟨rfl, rfl, rfl⟩
  · intro hgt
    rw [circuitBreaker_of_gate_ok requestFn s _ T' failTime w
      (gate_probe s T' hopen (by rw [hnum]; exact hgt))]
    exact ⟨rfl, rfl, rfl⟩

/-- C2, an instance: the circuit opened by a failure at time 5000; a call at
15000 is short-circuited, a call at 15001 calls the operation once. -/
theorem circuitBreaker_cooldown_boundary_witness :
    ((circuitBreaker (fun n : Nat => ((Except.ok n : Except String Nat), n + 1))
        { circuitBreakerState with isOpen := true, failureCount := 3,
                                   lastFailureTime := some 5000 } 15000 15000 7).result
        = .error circuitOpenError ∧
      (circuitBreaker (fun n : Nat => ((Except.ok n : Except String Nat), n + 1))
        { circuitBreakerState with isOpen := true, failureCount := 3,
                                   lastFailureTime := some 5000 } 15000 15000 7).invocations
        = 0) ∧
    ((circuitBreaker (fun n : Nat => ((Except.ok n : Except String Nat), n + 1))
        { circuitBreakerState with isOpen := true, failureCount := 3,
                                   lastFailureTime := some 5000 } 15001 15001 7).invocations
        = 1 ∧
      (circuitBreaker (fun n : Nat => ((Except.ok n : Except String Nat), n + 1))
        { circuitBreakerState with isOpen := true, failureCount := 3,
                                   lastFailureTime := some 5000 } 15001 15001 7).opState
        = 8) := by
  have hA := circuitBreaker_cooldown_boundary
    (fun n : Nat => ((Except.ok n : Except String Nat), n + 1))
    { circuitBreakerState with isOpen := true, failureCount := 3, lastFailureTime := some 5000 }
    5000 15000 15000 7 rfl rfl
  have hB := circuitBreaker_cooldown_boundary
    (fun n : Nat => ((Except.ok n : Except String Nat), n + 1))
    { circuitBreakerState with isOpen := true, failureCount := 3, lastFailureTime := some 5000 }
    5000 15001 15001 7 rfl rfl
  have h1 := hA.1 (by decide)
  have h2 := hB.2 (by decide)
  exact ⟨⟨h1.1, h1.2.1⟩, ⟨h2.1, h2.2.1⟩⟩

/-- C3. Probe outcome. In every state reachable by sequential calls with
`isOpen = true` and the cool-down elapsed, a call whose operation succeeds
leaves `isOpen = false` and `failureCount = 0`; a call whose operation fails
leaves `isOpen = true` and `lastFailureTime` equal to the time of that
failure. -/
theorem circuitBreaker_probe_outcome {σ ε α : Type} (requestFn : σ → Except ε α × σ)
    (s : CircuitState) (now failTime : Int) (w : σ)
    (hreach : Reachable s) (hopen : s.isOpen = true)
    (helapsed : now - s.lastFailureNum > s.resetTimeout) :
    (∀ v, (requestFn w).1 = .ok v →
      (circuitBreaker requestFn s now failTime w).invocations = 1 ∧
      (circuitBreaker requestFn s now failTime w).result = .ok v ∧
      (circuitBreaker requestFn s now failTime w).state.isOpen = false ∧
      (circuitBreaker requestFn s now failTime w).state.failureCount = 0) ∧
    (∀ err, (requestFn w).1 = .error err →
      (circuitBreaker requestFn s now failTime w).invocations = 1 ∧
      (circuitBreaker requestFn s now failTime w).state.isOpen = true ∧
      (circuitBreaker requestFn s now failTime w).state.lastFailureTime = some failTime) := by
  obtain ⟨_, _, hinv⟩ := reachable_inv s hreach
  have hge := (hinv hopen).1
  rw [circuitBreaker_of_gate_ok requestFn s _ now failTime w (gate_probe s now hopen helapsed)]
  constructor
  · intro v hv
    rw [hv, settle_ok]
    exact ⟨rfl, rfl, rfl, rfl⟩
  · intro err he
    rw [he, settle_error]
    have hge1 : s.failureCount + 1 ≥ s.failureThreshold := by omega
    simp [hge1]

/-- C3, an instance: the state left by three failures (the last at time 5) is
reachable and open; a probe at time 20000 that succeeds closes the circuit and
resets the count, a probe that fails at time 20002 keeps it open with
`lastFailureTime = 20002`. -/
theorem circuitBreaker_probe_outcome_witness :
    Reachable { circuitBreakerState with isOpen := true, failureCount := 3,
                                         lastFailureTime := some 5 } ∧
    ((circuitBreaker (fun u : Unit => ((Except.ok 42 : Except String Nat), u))
        { circuitBreakerState with isOpen := true, failureCount := 3,
                                   lastFailureTime := some 5 } 20000 20002 ()).state.isOpen
        = false ∧
      (circuitBreaker (fun u : Unit => ((Except.ok 42 : Except String Nat), u))
        { circuitBreakerState with isOpen := true, failureCount := 3,
                                   lastFailureTime := some 5 } 20000 20002 ()).state.failureCount
        = 0) ∧
    ((circuitBreaker (fun u : Unit => ((Except.error "Service B failed" : Except String Nat), u))
        { circuitBreakerState with isOpen := true, failureCount := 3,
                                   lastFailureTime := some 5 } 20000 20002 ()).state.isOpen
        = true ∧
      (circuitBreaker (fun u : Unit => ((Except.error "Service B failed" : Except String Nat), u))
        { circuitBreakerState with isOpen := true, failureCount := 3,
                                   lastFailureTime := some 5 } 20000 20002 ()).state.lastFailureTime
        = some 20002) := by
  have hreach : Reachable { circuitBreakerState with isOpen := true, failureCount := 3,
                                                     lastFailureTime := some 5 } := by
    have h := calls_reachable
      (fun u : Unit => ((Except.error "Service B failed" : Except String Nat), u))
      [⟨0, 1⟩, ⟨2, 3⟩, ⟨4, 5⟩] circuitBreakerState () Reachable.init
    have hs : (circuitBreaker.calls
        (fun u : Unit => ((Except.error "Service B failed" : Except String Nat), u))
        circuitBreakerState () [⟨0, 1⟩, ⟨2, 3⟩, ⟨4, 5⟩]).state =
        { circuitBreakerState with isOpen := true, failureCount := 3,
                                   lastFailureTime := some 5 } := by decide
    rw [hs] at h
    exact h
  have hok := (circuitBreaker_probe_outcome
    (fun u : Unit => ((Except.ok 42 : Except String Nat), u))
    { circuitBreakerState with isOpen := true, failureCount := 3, lastFailureTime := some 5 }
    20000 20002 () hreach rfl (by decide)).1 42 rfl
  have herr := (circuitBreaker_probe_outcome
    (fun u : Unit => ((Except.error "Service B failed" : Except String Nat), u))
    { circuitBreakerState with isOpen := true, failureCount := 3, lastFailureTime := some 5 }
    20000 20002 () hreach rfl (by decide)).2 "Service B failed" rfl
  exact ⟨hreach, ⟨hok.2.2.1, hok.2.2.2⟩, ⟨herr.2.1, herr.2.2⟩⟩

/-- C9. Failure path. In every state in which the call is not short-circuited
(the circuit is closed, or it is open and the cool-down has elapsed), if the
operation throws `err` the guarded call rejects with exactly `err`, which is
not the circuit-open error; in the resulting state `failureCount` is the
previous one plus 1, `lastFailureTime` is the time of the failure, and `isOpen`
is true whenever the new `failureCount` has reached `failureThreshold`. -/
theorem circuitBreaker_failure_path {σ ε α : Type} (requestFn : σ → Except ε α × σ)
    (s : CircuitState) (now failTime : Int) (w : σ) (err : ε)
    (hpass : s.isOpen = false ∨ now - s.lastFailureNum > s.resetTimeout)
    (herr : (requestFn w).1 = .error err) :
    (circuitBreaker requestFn s now failTime w).result = .error (Thrown.raised err) ∧
    (circuitBreaker requestFn s now failTime w).result ≠ .error circuitOpenError ∧
    (circuitBreaker requestFn s now failTime w).invocations = 1 ∧
    (circuitBreaker requestFn s now failTime w).state.failureCount = s.failureCount + 1 ∧
    (circuitBreaker requestFn s now failTime w).state.lastFailureTime = some failTime ∧
    (circuitBreaker requestFn s now failTime w).state.failureThreshold = s.failureThreshold ∧
    (circuitBreaker requestFn s now failTime w).state.resetTimeout = s.resetTimeout ∧
    ((circuitBreaker requestFn s now failTime w).state.failureCount ≥
        (circuitBreaker requestFn s now failTime w).state.failureThreshold →
      (circuitBreaker requestFn s now failTime w).state.isOpen = true) := by
  have hgate : ∃ s1, circuitBreaker.gate (ε := ε) s now = .ok s1 ∧
      s1.failureCount = s.failureCount ∧ s1.failureThreshold = s.failureThreshold ∧
      s1.resetTimeout = s.resetTimeout := by
    by_cases hopen : s.isOpen = true
    · rcases hpass with hclosed | hpast
      · rw [hclosed] at hopen
        cases hopen
      · exact ⟨_, gate_probe s now hopen hpast, rfl, rfl, rfl⟩
    · exact ⟨_, gate_closed s now (by simpa using hopen), rfl, rfl, rfl⟩
  obtain ⟨s1, hg, hc, ht, hr⟩ := hgate
  rw [circuitBreaker_of_gate_ok requestFn s s1 now failTime w hg, herr, settle_error]
  by_cases hge : s1.failureCount + 1 ≥ s1.failureThreshold
  · rw [if_pos hge]
    simp [hc, ht, hr, circuitOpenError]
  · rw [if_neg hge]
    simp [hc, ht, hr, circuitOpenError]
    omega

/-- C9, an instance: from the state with two recorded failures, a third failure
at time 77 is passed on as it is and opens the circuit. -/
theorem circuitBreaker_failure_path_witness :
    (circuitBreaker (fun u : Unit => ((Except.error "Service B failed" : Except String Nat), u))
        { circuitBreakerState with failureCount := 2, lastFailureTime := some 3 } 70 77 ()).result
      = .error (Thrown.raised "Service B failed") ∧
    (circuitBreaker (fun u : Unit => ((Except.error "Service B failed" : Except String Nat), u))
        { circuitBreakerState with failureCount := 2, lastFailureTime := some 3 } 70 77 ()).state
      = { circuitBreakerState with isOpen := true, failureCount := 3,
                                   lastFailureTime := some 77 } := by
  have h := circuitBreaker_failure_path
    (fun u : Unit => ((Except.error "Service B failed" : Except String Nat), u))
    { circuitBreakerState with failureCount := 2, lastFailureTime := some 3 } 70 77 ()
    "Service B failed" (Or.inl rfl) rfl
  exact ⟨h.1, by decide⟩

/-- C10. Short-circuit has no side effect. In every state with `isOpen = true` and
`now - lastFailureTime ≤ resetTimeout`, the guarded call fails with the
circuit-open error, the operation is called zero times (its closure state is
untouched), and the circuit state, every field of it, is unchanged. -/
theorem circuitBreaker_shortCircuit_frame {σ ε α : Type} (requestFn : σ → Except ε α × σ)
    (s : CircuitState) (now failTime : Int) (w : σ)
    (hopen : s.isOpen = true) (hcool : now - s.lastFailureNum ≤ s.resetTimeout) :
    (circuitBreaker requestFn s now failTime w).result = .error circuitOpenError ∧
    (circuitBreaker requestFn s now failTime w).invocations = 0 ∧
    (circuitBreaker requestFn s now failTime w).opState = w ∧
    (circuitBreaker requestFn s now failTime w).stateAtInvoke = none ∧
    (circuitBreaker requestFn s now failTime w).state = s := by
  rw [circuitBreaker_shortCircuit requestFn s now failTime w hopen hcool]
  exact ⟨rfl, rfl, rfl, rfl, rfl⟩

/-- C10, an instance: an open circuit whose last failure was at time 5, called at
time 10005. -/
theorem circuitBreaker_shortCircuit_frame_witness :
    (circuitBreaker (fun n : Nat => ((Except.ok n : Except String Nat), n + 1))
        { circuitBreakerState with isOpen := true, failureCount := 3,
                                   lastFailureTime := some 5 } 10005 10005 0).result
      = .error circuitOpenError ∧
    (circuitBreaker (fun n : Nat => ((Except.ok n : Except String Nat), n + 1))
        { circuitBreakerState with isOpen := true, failureCount := 3,
                                   lastFailureTime := some 5 } 10005 10005 0).state
      = { circuitBreakerState with isOpen := true, failureCount := 3,
                                   lastFailureTime := some 5 } := by
  have h := circuitBreaker_shortCircuit_frame
    (fun n : Nat => ((Except.ok n : Except String Nat), n + 1))
    { circuitBreakerState with isOpen := true, failureCount := 3, lastFailureTime := some 5 }
    10005 10005 0 rfl (by decide)
  exact ⟨h.1, h.2.2.2.2⟩

/-! ## Retry: the loop, one iteration at a time -/

/-- The loop ends at once, with `undefined`, when `attempt < maxRetries` is false. -/
theorem loop_exit {σ ε α : Type} (requestFn : σ → Except ε α × σ) (maxRetries delay : Int)
    (attempt : Int) (w : σ) (h : ¬ attempt < maxRetries) :
    withRetry.loop requestFn maxRetries delay attempt w =
      { result := .ok none, opState := w, trace := [] } := by
  rw [withRetry.loop, if_neg h]

/-- An iteration whose call succeeds returns the value (line 54). -/
theorem loop_ok {σ ε α : Type} (requestFn : σ → Except ε α × σ) (maxRetries delay : Int)
    (attempt : Int) (w : σ) (v : α) (h : attempt < maxRetries)
    (hv : (requestFn w).1 = .ok v) :
    withRetry.loop requestFn maxRetries delay attempt w =
      { result := .ok (some v), opState := (requestFn w).2, trace := [RetryEvent.invoked] } := by
  rw [withRetry.loop, if_pos h]
  rcases hr : requestFn w with ⟨out, w1⟩
  rw [hr] at hv
  simp only at hv
  subst hv
  rfl

/-- An iteration whose call fails with the last permitted attempt rethrows the
error (line 57). -/
theorem loop_last {σ ε α : Type} (requestFn : σ → Except ε α × σ) (maxRetries delay : Int)
    (attempt : Int) (w : σ) (err : ε) (h : attempt < maxRetries)
    (he : (requestFn w).1 = .error err) (hl : attempt + 1 ≥ maxRetries) :
    withRetry.loop requestFn maxRetries delay attempt w =
      { result := .error err, opState := (requestFn w).2, trace := [RetryEvent.invoked] } := by
  rw [withRetry.loop, if_pos h]
  rcases hr : requestFn w with ⟨out, w1⟩
  rw [hr] at he
  simp only at he
  subst he
  simp only [if_pos hl]

/-- An iteration whose call fails with attempts left logs, waits and goes round
again (lines 58-59). -/
theorem loop_retry {σ ε α : Type} (requestFn : σ → Except ε α × σ) (maxRetries delay : Int)
    (attempt : Int) (w : σ) (err : ε) (h : attempt < maxRetries)
    (he : (requestFn w).1 = .error err) (hl : ¬ attempt + 1 ≥ maxRetries) :
    withRetry.loop requestFn maxRetries delay attempt w =
      { withRetry.loop requestFn maxRetries delay (attempt + 1) (requestFn w).2 with
        trace := RetryEvent.invoked :: RetryEvent.logged (attempt + 1) ::
          RetryEvent.delayed delay ::
          (withRetry.loop requestFn maxRetries delay (attempt + 1) (requestFn w).2).trace } := by
  rw [withRetry.loop, if_pos h]
  rcases hr : requestFn w with ⟨out, w1⟩
  rw [hr] at he
  simp only at he
  subst he
  simp only [if_neg hl]

/-- Calls of the operation in the event list of `k` failures and a last call. -/
theorem retryTrace_invoked (delay : Int) :
    ∀ (k : Nat) (attempt : Int),
      (retryTrace delay attempt k).countP RetryEvent.isInvoked = k + 1 := by
  intro k
  induction k with
  | zero => intro attempt; rfl
  | succ k ih =>
    intro attempt
    simp [retryTrace, RetryEvent.isInvoked, ih]

/-- Delays in the event list of `k` failures and a last call. -/
theorem retryTrace_delayed (delay : Int) :
    ∀ (k : Nat) (attempt : Int),
      (retryTrace delay attempt k).countP RetryEvent.isDelayed = k := by
  intro k
  induction k with
  | zero => intro attempt; rfl
  | succ k ih =>
    intro attempt
    simp [retryTrace, RetryEvent.isDelayed, ih]

/-- The event list of `k` failures and a last call ends with a call of the
operation: nothing is waited for after the final attempt. -/
theorem retryTrace_getLast (delay : Int) :
    ∀ (k : Nat) (attempt : Int),
      (retryTrace delay attempt k).getLast? = some RetryEvent.invoked := by
  intro k
  induction k with
  | zero => intro attempt; rfl
  | succ k ih =>
    intro attempt
    have h := ih (attempt + 1)
    cases hl : retryTrace delay (attempt + 1) k with
    | nil => rw [hl] at h; cases h
    | cons e es =>
      rw [hl] at h
      simp only [retryTrace, hl, List.getLast?_cons_cons]
      exact h

/-! ## Retry: whole runs -/

/-- A run of the loop in which the first `k` calls fail with attempts left: if call
`k + 1` succeeds, or fails as the last permitted attempt, the run is `k`
rounds of call, log and delay followed by that call, and settles as that call
does. -/
theorem loop_run {σ ε α : Type} (requestFn : σ → Except ε α × σ) (maxRetries delay : Int) :
    ∀ (k : Nat) (attempt : Int) (w : σ),
      attempt + k < maxRetries →
      (∀ i, i < k → ∃ err, nthOutcome requestFn i w = .error err) →
      (∀ v, nthOutcome requestFn k w = .ok v →
        withRetry.loop requestFn maxRetries delay attempt w =
          { result := .ok (some v), opState := opStateAfter requestFn (k + 1) w,
            trace := retryTrace delay attempt k }) ∧
      (∀ err, nthOutcome requestFn k w = .error err → attempt + k + 1 ≥ maxRetries →
        withRetry.loop requestFn maxRetries delay attempt w =
          { result := .error err, opState := opStateAfter requestFn (k + 1) w,
            trace := retryTrace delay attempt k }) := by
  intro k
  induction k with
  | zero =>
    intro attempt w hlt _
    have hlt0 : attempt < maxRetries := by simpa using hlt
    constructor
    · intro v hv
      exact loop_ok requestFn maxRetries delay attempt w v hlt0 hv
    · intro err he hl
      exact loop_last requestFn maxRetries delay attempt w err hlt0 he (by simpa using hl)
  | succ k ih =>
    intro attempt w hlt hfail
    obtain ⟨e0, he0⟩ := hfail 0 (Nat.succ_pos k)
    have hlt0 : attempt < maxRetries := by omega
    have hnl : ¬ attempt + 1 ≥ maxRetries := by omega
    have hstep := loop_retry requestFn maxRetries delay attempt w e0 hlt0 he0 hnl
    have hih := ih (attempt + 1) (requestFn w).2 (by push_cast at hlt; omega)
      (fun i hi => hfail (i + 1) (Nat.succ_lt_succ hi))
    constructor
    · intro v hv
      rw [hstep, hih.1 v hv]
      rfl
    · intro err he hl
      rw [hstep, hih.2 err he (by push_cast at hl; omega)]
      rfl

/-- Every run of the loop that is entered with `attempt < maxRetries` has this
shape: for some `k` with `attempt + k < maxRetries`, the first `k` calls of the
operation fail and are each followed by a log line and a delay, call `k + 1`
is the last event, and the run settles as that call does (a failure is
rethrown only when it was the last permitted attempt). -/
theorem loop_shape {σ ε α : Type} (requestFn : σ → Except ε α × σ) (maxRetries delay : Int) :
    ∀ (n : Nat) (attempt : Int) (w : σ),
      attempt < maxRetries → maxRetries - attempt ≤ n + 1 →
      ∃ k : Nat, attempt + k < maxRetries ∧
        (∀ i, i < k → ∃ err, nthOutcome requestFn i w = .error err) ∧
        (withRetry.loop requestFn maxRetries delay attempt w).trace =
          retryTrace delay attempt k ∧
        (withRetry.loop requestFn maxRetries delay attempt w).opState =
          opStateAfter requestFn (k + 1) w ∧
        ((∃ v, nthOutcome requestFn k w = .ok v ∧
            (withRetry.loop requestFn maxRetries delay attempt w).result = .ok (some v)) ∨
          (∃ err, nthOutcome requestFn k w = .error err ∧ attempt + k + 1 = maxRetries ∧
            (withRetry.loop requestFn maxRetries delay attempt w).result = .error err)) := by
  intro n
  induction n with
  | zero =>
    intro attempt w hlt hle
    refine ⟨0, by simpa using hlt, fun i hi => absurd hi (Nat.not_lt_zero i), ?_⟩
    cases hout : (requestFn w).1 with
    | ok v =>
      rw [loop_ok requestFn maxRetries delay attempt w v hlt hout]
      exact ⟨rfl, rfl, Or.inl ⟨v, hout, rfl⟩⟩
    | error err =>
      rw [loop_last requestFn maxRetries delay attempt w err hlt hout (by omega)]
      exact ⟨rfl, rfl, Or.inr ⟨err, hout, by push_cast at hle ⊢; omega, rfl⟩⟩
  | succ n ih =>
    intro attempt w hlt hle
    cases hout : (requestFn w).1 with
    | ok v =>
      refine ⟨0, by simpa using hlt, fun i hi => absurd hi (Nat.not_lt_zero i), ?_⟩
      rw [loop_ok requestFn maxRetries delay attempt w v hlt hout]
      exact ⟨rfl, rfl, Or.inl ⟨v, hout, rfl⟩⟩
    | error err =>
      by_cases hl : attempt + 1 ≥ maxRetries
      · refine ⟨0, by simpa using hlt, fun i hi => absurd hi (Nat.not_lt_zero i), ?_⟩
        rw [loop_last requestFn maxRetries delay attempt w err hlt hout hl]
        exact ⟨rfl, rfl, Or.inr ⟨err, hout, by push_cast; omega, rfl⟩⟩
      · obtain ⟨k, hk, hfail, htr, hst, hres⟩ :=
          ih (attempt + 1) (requestFn w).2 (by omega) (by push_cast at hle ⊢; omega)
        rw [loop_retry requestFn maxRetries delay attempt w err hlt hout hl]
        refine ⟨k + 1, by push_cast; omega, ?_, ?_, ?_, ?_⟩
        · intro i hi
          cases i with
          | zero => exact ⟨err, hout⟩
          | succ j => exact hfail j (Nat.lt_of_succ_lt_succ hi)
        · simp only [htr, retryTrace]
        · simp only [hst]
          rfl
        · rcases hres with ⟨v, hv, hr⟩ | ⟨e, he, hm, hr⟩
          · exact Or.inl ⟨v, hv, hr⟩
          · exact Or.inr ⟨e, he, by push_cast; omega, hr⟩

/-- The general statement about operations that succeed at call `k + 1`: the run
returns that value after exactly `k + 1` calls and `k` delays. -/
theorem withRetry_run_ok {σ ε α : Type} (requestFn : σ → Except ε α × σ) (w : σ)
    (maxRetries delay : Int) (k : Nat) (v : α) (hk : (k : Int) < maxRetries)
    (hfail : ∀ i, i < k → ∃ err, nthOutcome requestFn i w = .error err)
    (hok : nthOutcome requestFn k w = .ok v) :
    (withRetry requestFn w maxRetries delay).result = .ok (some v) ∧
    (withRetry requestFn w maxRetries delay).invocations = k + 1 ∧
    (withRetry requestFn w maxRetries delay).delays = k ∧
    (withRetry requestFn w maxRetries delay).opState = opStateAfter requestFn (k + 1) w := by
  have h := (loop_run requestFn maxRetries delay k 0 w (by omega) hfail).1 v hok
  simp only [withRetry, RetryRun.invocations, RetryRun.delays, h, retryTrace_invoked,
    retryTrace_delayed, and_self]

/-! ## Retry: the claims -/

/-- C4. Retry on an always-failing operation. For every `maxRetries ≥ 1` and every
operation whose calls fail (the first `maxRetries` of them is all that is
used), `withRetry` calls the operation exactly `maxRetries` times, waits
`maxRetries - 1` delays, and rejects with the error thrown by call number
`maxRetries`, the last one, unchanged. -/
theorem withRetry_always_failing {σ ε α : Type} (requestFn : σ → Except ε α × σ) (w : σ)
    (maxRetries delay : Int) (hmax : 1 ≤ maxRetries)
    (hfail : ∀ i, i < maxRetries.toNat → ∃ err, nthOutcome requestFn i w = .error err) :
    ((withRetry requestFn w maxRetries delay).invocations : Int) = maxRetries ∧
    ((withRetry requestFn w maxRetries delay).delays : Int) = maxRetries - 1 ∧
    (withRetry requestFn w maxRetries delay).opState =
      opStateAfter requestFn maxRetries.toNat w ∧
    ∃ err, nthOutcome requestFn (maxRetries.toNat - 1) w = .error err ∧
      (withRetry requestFn w maxRetries delay).result = .error err := by
  obtain ⟨k, hk⟩ : ∃ k : Nat, maxRetries.toNat = k + 1 := ⟨maxRetries.toNat - 1, by omega⟩
  have hm : maxRetries = (k : Int) + 1 := by omega
  obtain ⟨err, he⟩ := hfail k (by omega)
  have h := (loop_run requestFn maxRetries delay k 0 w (by omega)
    (fun i hi => hfail i (by omega))).2 err he (by omega)
  refine ⟨?_, ?_, ?_, err, ?_, ?_⟩
  · simp only [withRetry, RetryRun.invocations, h, retryTrace_invoked]
    push_cast
    omega
  · simp only [withRetry, RetryRun.delays, h, retryTrace_delayed]
    omega
  · simp only [withRetry, h, hk]
  · rw [hk]
    exact he
  · simp only [withRetry, h]

/-- C4, an instance with `maxRetries = 3`: the operation's call number `n` throws
`n`; the run makes 3 calls and rejects with `3`. -/
theorem withRetry_always_failing_witness :
    (withRetry (fun n : Nat => ((Except.error (n + 1) : Except Nat String), n + 1)) 0 3
        1000).invocations = 3 ∧
    (withRetry (fun n : Nat => ((Except.error (n + 1) : Except Nat String), n + 1)) 0 3
        1000).result = .error 3 := by
  have h := withRetry_always_failing
    (fun n : Nat => ((Except.error (n + 1) : Except Nat String), n + 1)) 0 3 1000
    (by decide) (fun i _ => ⟨_, rfl⟩)
  obtain ⟨h1, _, _, err, he, hr⟩ := h
  have h3 : nthOutcome (fun n : Nat => ((Except.error (n + 1) : Except Nat String), n + 1))
      ((3 : Int).toNat - 1) 0 = .error 3 := rfl
  rw [h3] at he
  cases he
  exact ⟨by exact_mod_cast h1, hr⟩

/-- C5. Retry on an operation that succeeds in the end. For every `maxRetries` and
every `k < maxRetries`, if the operation fails on its first `k` calls and
succeeds on call `k + 1`, `withRetry` returns that call's value after exactly
`k + 1` calls of the operation and exactly `k` delays. The run of the
`/retry` endpoint is the case `k = 2`, `maxRetries = 3`: it returns
'Success after 3 attempts' after 3 calls and 2 delays. -/
theorem withRetry_eventual_success :
    (∀ {σ ε α : Type} (requestFn : σ → Except ε α × σ) (w : σ) (maxRetries delay : Int)
        (k : Nat) (v : α),
      (k : Int) < maxRetries →
      (∀ i, i < k → ∃ err, nthOutcome requestFn i w = .error err) →
      nthOutcome requestFn k w = .ok v →
      (withRetry requestFn w maxRetries delay).result = .ok (some v) ∧
      (withRetry requestFn w maxRetries delay).invocations = k + 1 ∧
      (withRetry requestFn w maxRetries delay).delays = k ∧
      (withRetry requestFn w maxRetries delay).opState = opStateAfter requestFn (k + 1) w) ∧
    (retryDemo.result = .ok (some "Success after 3 attempts") ∧
      retryDemo.invocations = 3 ∧ retryDemo.delays = 2) := by
  refine ⟨fun requestFn w maxRetries delay k v hk hfail hok =>
    withRetry_run_ok requestFn w maxRetries delay k v hk hfail hok, ?_⟩
  have h := withRetry_run_ok retryDemoOp 0 3 1000 2 "Success after 3 attempts" (by decide)
    (fun i hi => by
      have hi' : i = 0 ∨ i = 1 := by omega
      rcases hi' with rfl | rfl
      · exact ⟨"Temporary failure", rfl⟩
      · exact ⟨"Temporary failure", rfl⟩)
    rfl
  exact ⟨h.1, h.2.1, h.2.2.1⟩

/-- C5, an instance: an operation that fails once and then succeeds, with
`maxRetries = 2`: success after 2 calls and 1 delay. -/
theorem withRetry_eventual_success_witness :
    (withRetry (fun n : Nat =>
        ((if n < 1 then Except.error "down" else Except.ok n : Except String Nat), n + 1)) 0 2
        1000).result = .ok (some 1) ∧
    (withRetry (fun n : Nat =>
        ((if n < 1 then Except.error "down" else Except.ok n : Except String Nat), n + 1)) 0 2
        1000).invocations = 2 ∧
    (withRetry (fun n : Nat =>
        ((if n < 1 then Except.error "down" else Except.ok n : Except String Nat), n + 1)) 0 2
        1000).delays = 1 := by
  have h := withRetry_eventual_success.1
    (fun n : Nat =>
      ((if n < 1 then Except.error "down" else Except.ok n : Except String Nat), n + 1))
    0 2 1000 1 1 (by decide)
    (fun i hi => by
      have hi' : i = 0 := by omega
      subst hi'
      exact ⟨"down", rfl⟩)
    rfl
  exact ⟨h.1, h.2.1, h.2.2.1⟩

/-- C6. Retry bound. For every operation and every `maxRetries > 0`, `withRetry`
(a total function: the loop always ends) calls the operation at least once and
at most `maxRetries` times, waits at most `maxRetries - 1` delays, and the
number of delays is exactly one less than the number of calls; the last event
of the run is a call of the operation, so no delay follows the final
attempt. -/
theorem withRetry_bounded {σ ε α : Type} (requestFn : σ → Except ε α × σ) (w : σ)
    (maxRetries delay : Int) (hmax : 0 < maxRetries) :
    1 ≤ (withRetry requestFn w maxRetries delay).invocations ∧
    ((withRetry requestFn w maxRetries delay).invocations : Int) ≤ maxRetries ∧
    ((withRetry requestFn w maxRetries delay).delays : Int) ≤ maxRetries - 1 ∧
    (withRetry requestFn w maxRetries delay).delays + 1 =
      (withRetry requestFn w maxRetries delay).invocations ∧
    (withRetry requestFn w maxRetries delay).trace.getLast? = some RetryEvent.invoked ∧
    (withRetry requestFn w maxRetries delay).opState =
      opStateAfter requestFn (withRetry requestFn w maxRetries delay).invocations w := by
  obtain ⟨k, hk, _, htr, hst, _⟩ :=
    loop_shape requestFn maxRetries delay maxRetries.toNat 0 w hmax (by omega)
  have hinv : (withRetry requestFn w maxRetries delay).invocations = k + 1 := by
    simp only [withRetry, RetryRun.invocations, htr, retryTrace_invoked]
  have hdel : (withRetry requestFn w maxRetries delay).delays = k := by
    simp only [withRetry, RetryRun.delays, htr, retryTrace_delayed]
  rw [hinv, hdel]
  refine ⟨by omega, by push_cast; omega, by omega, rfl, ?_, ?_⟩
  · simp only [withRetry, htr, retryTrace_getLast]
  · simp only [withRetry, hst]

/-- C6, an instance: the `/retry` operation under `maxRetries = 2` is called
twice (both calls fail) with one delay in between. -/
theorem withRetry_bounded_witness :
    (0 : Int) < 2 ∧
    ((withRetry retryDemoOp 0 2 1000).invocations : Int) ≤ 2 ∧
    (withRetry retryDemoOp 0 2 1000).delays + 1 = (withRetry retryDemoOp 0 2 1000).invocations :=
  ⟨by decide, (withRetry_bounded retryDemoOp 0 2 1000 (by decide)).2.1,
    (withRetry_bounded retryDemoOp 0 2 1000 (by decide)).2.2.2.1⟩

/-! ## Timeout: the claims -/

/-- A delay between 1 and `2^31 - 1` milliseconds is taken as it is. -/
theorem effectiveDelay_inRange (t : Nat) (h1 : 1 ≤ t) (hmax : t ≤ 2147483647) :
    setTimeout.effectiveDelay t = t := by
  simp [setTimeout.effectiveDelay, setTimeout.TIMEOUT_MAX, h1, hmax]

/-- C7, as stated, fails at both ends of the range of `t`. With `timeout = 0` the
timer runs after 1 ms, so an operation with `d = 0 ≥ t` wins, whether its
promise settles within the calling turn (`async () => 42`) or in a later turn
at 0 ms: the wrapper resolves with 42. With `timeout = 2147483648` (above
`2^31 - 1`) and an operation that settles at `d = 2147483648 ≥ t`, the timeout
error comes at 1 ms, not at time `t`. -/
theorem withTimeout_deadline_counterexample :
    (TimedOp.mk Settles.sameTurn (Except.ok 42 : Except String Nat)).settles.ms ≥ 0 ∧
    (withTimeout (TimedOp.mk Settles.sameTurn (Except.ok 42 : Except String Nat)) 0).settled
      = some (0, .ok 42) ∧
    (withTimeout (TimedOp.mk Settles.sameTurn (Except.ok 42 : Except String Nat)) 0).settled
      ≠ some (0, .error timeoutError) ∧
    (withTimeout (TimedOp.mk (Settles.afterMs 0) (Except.ok 42 : Except String Nat)) 0).settled
      = some (0, .ok 42) ∧
    (TimedOp.mk (Settles.afterMs 2147483648) (Except.ok 42 : Except String Nat)).settles.ms
      ≥ 2147483648 ∧
    (withTimeout (TimedOp.mk (Settles.afterMs 2147483648) (Except.ok 42 : Except String Nat))
        2147483648).settled = some (1, .error timeoutError) ∧
    (withTimeout (TimedOp.mk (Settles.afterMs 2147483648) (Except.ok 42 : Except String Nat))
        2147483648).settled ≠ some (2147483648, .error timeoutError) := by
  refine ⟨Nat.zero_le _, ?_, ?_, ?_, Nat.le_refl _, ?_, ?_⟩ <;>
    simp [withTimeout, withTimeout.schedule, Race.step, Race.settleWith,
      setTimeout.effectiveDelay, setTimeout.TIMEOUT_MAX]

/-- C7, amended. For every operation that settles `d` milliseconds after the call
and every timeout `t` with `1 ≤ t ≤ 2^31 - 1`: if `d ≥ t`, the wrapper rejects
with the timeout error ('Request timed out') at time `t`, not at time `d`, and
what the operation does later changes nothing. The `/timeout` endpoint
(`d = 6000`, `t = 3000`) rejects with the timeout error at 3000 ms. -/
theorem withTimeout_deadline_wins :
    (∀ {ε α : Type} (op : TimedOp ε α) (t : Nat),
      1 ≤ t → t ≤ 2147483647 → op.settles.ms ≥ t →
      (withTimeout op t).settled = some (t, .error timeoutError) ∧
      (withTimeout op t).timerArmed = false) ∧
    timeoutDemo.settled = some (3000, .error timeoutError) := by
  constructor
  · intro ε α op t h1 hmax hdt
    rcases op with ⟨settles, outcome⟩
    have hdelay := effectiveDelay_inRange t h1 hmax
    cases settles with
    | sameTurn =>
      simp only [Settles.ms] at hdt
      omega
    | afterMs d =>
      have hle : t ≤ d := hdt
      cases outcome <;>
        simp [withTimeout, withTimeout.schedule, Race.step, Race.settleWith, hdelay, hle]
  · simp [timeoutDemo, withTimeout, withTimeout.schedule, Race.step, Race.settleWith,
      setTimeout.effectiveDelay, setTimeout.TIMEOUT_MAX]

/-- C7 amended, an instance: an operation that rejects after 3000 ms against a
timeout of 3000 ms ends in the timeout error at 3000 ms, and its own error is
dropped. -/
theorem withTimeout_deadline_wins_witness :
    (withTimeout (TimedOp.mk (Settles.afterMs 3000) (Except.error "Service B failed" :
        Except String Nat)) 3000).settled = some (3000, .error timeoutError) :=
  (withTimeout_deadline_wins.1 (TimedOp.mk (Settles.afterMs 3000)
    (Except.error "Service B failed" : Except String Nat)) 3000 (by decide) (by decide)
    (Nat.le_refl _)).1

/-- C8, as stated, fails. With `timeout = 2147483648` (above `2^31 - 1`) the timer
runs after 1 ms: an operation that resolves after `d = 50` ms has `d < t`, yet
the wrapper rejects with the timeout error at 1 ms and the operation's value
is dropped. -/
theorem withTimeout_operation_counterexample :
    (TimedOp.mk (Settles.afterMs 50) (Except.ok 42 : Except String Nat)).settles.ms
      < 2147483648 ∧
    (withTimeout (TimedOp.mk (Settles.afterMs 50) (Except.ok 42 : Except String Nat))
        2147483648).settled = some (1, .error timeoutError) ∧
    (withTimeout (TimedOp.mk (Settles.afterMs 50) (Except.ok 42 : Except String Nat))
        2147483648).settled ≠ some (50, .ok 42) := by
  refine ⟨by decide, ?_, ?_⟩ <;>
    simp [withTimeout, withTimeout.schedule, Race.step, Race.settleWith,
      setTimeout.effectiveDelay, setTimeout.TIMEOUT_MAX]

/-- C8, amended. For every operation that settles `d` milliseconds after the call
and every timeout `t` with `d < t` and `t ≤ 2^31 - 1`, the wrapper settles at
time `d` as the operation does: it resolves with the operation's value, or
rejects with the operation's own error unchanged, never with the timeout
error; the timer is cleared. -/
theorem withTimeout_operation_wins {ε α : Type} (op : TimedOp ε α) (t : Nat)
    (hlt : op.settles.ms < t) (hmax : t ≤ 2147483647) :
    (∀ v, op.outcome = .ok v → (withTimeout op t).settled = some (op.settles.ms, .ok v)) ∧
    (∀ err, op.outcome = .error err →
      (withTimeout op t).settled = some (op.settles.ms, .error (Thrown.raised err))) ∧
    (∀ time, (withTimeout op t).settled ≠ some (time, .error timeoutError)) ∧
    (withTimeout op t).timerArmed = false := by
  have hdelay := effectiveDelay_inRange t (by omega) hmax
  rcases op with ⟨settles, outcome⟩
  cases settles with
  | sameTurn =>
    cases outcome <;>
      simp [withTimeout, withTimeout.schedule, Race.step, Race.settleWith, Settles.ms,
        timeoutError]
  | afterMs d =>
    have hnle : ¬ t ≤ d := by
      simp only [Settles.ms] at hlt
      omega
    cases outcome <;>
      simp [withTimeout, withTimeout.schedule, Race.step, Race.settleWith, Settles.ms,
        timeoutError, hdelay, hnle]

/-- C8 amended, an instance: an operation that resolves after 1000 ms against a
timeout of 3000 ms resolves the wrapper with its value at 1000 ms. -/
theorem withTimeout_operation_wins_witness :
    (withTimeout (TimedOp.mk (Settles.afterMs 1000) (Except.ok "Success from Service B" :
        Except String String)) 3000).settled = some (1000, .ok "Success from Service B") :=
  (withTimeout_operation_wins (TimedOp.mk (Settles.afterMs 1000)
    (Except.ok "Success from Service B" : Except String String)) 3000 (by decide)
    (by decide)).1 _ rfl

/-! ## Circuit breaker: the probe, several functions, overlapping calls -/

/-- C11, as stated, fails. In the open state whose last failure was at time 5, a
call at time 20000 (cool-down elapsed) calls the operation in a state with
`isOpen = false`: line 24 has already run. -/
theorem circuitBreaker_probe_state_counterexample :
    (circuitBreaker (fun u : Unit => ((Except.ok 42 : Except String Nat), u))
        { circuitBreakerState with isOpen := true, failureCount := 3,
                                   lastFailureTime := some 5 } 20000 20002 ()).stateAtInvoke
      = some { circuitBreakerState with isOpen := false, failureCount := 3,
                                        lastFailureTime := some 5 } ∧
    (circuitBreaker (fun u : Unit => ((Except.ok 42 : Except String Nat), u))
        { circuitBreakerState with isOpen := true, failureCount := 3,
                                   lastFailureTime := some 5 } 20000 20002 ()).stateAtInvoke
      ≠ some { circuitBreakerState with isOpen := true, failureCount := 3,
                                        lastFailureTime := some 5 } := by
  constructor <;> decide

/-- C11, amended. In every state with `isOpen = true` and the cool-down elapsed,
the gate closes the circuit before the probe runs: the operation is called in
the state that differs from the old one in `isOpen = false` only. After a
probe that succeeds `isOpen` is still false; after a probe that fails it is
true exactly when the new `failureCount` has reached `failureThreshold`. -/
theorem circuitBreaker_probe_state {σ ε α : Type} (requestFn : σ → Except ε α × σ)
    (s : CircuitState) (now failTime : Int) (w : σ)
    (hopen : s.isOpen = true) (helapsed : now - s.lastFailureNum > s.resetTimeout) :
    (circuitBreaker requestFn s now failTime w).stateAtInvoke =
      some { s with isOpen := false } ∧
    (∀ v, (requestFn w).1 = .ok v →
      (circuitBreaker requestFn s now failTime w).state.isOpen = false) ∧
    (∀ err, (requestFn w).1 = .error err →
      ((circuitBreaker requestFn s now failTime w).state.isOpen = true ↔
        s.failureCount + 1 ≥ s.failureThreshold)) := by
  rw [circuitBreaker_of_gate_ok requestFn s _ now failTime w (gate_probe s now hopen helapsed)]
  refine ⟨rfl, ?_, ?_⟩
  · intro v hv
    rw [hv, settle_ok]
  · intro err he
    rw [he, settle_error]
    by_cases hge : s.failureCount + 1 ≥ s.failureThreshold
    · simp [hge]
    · simp [hge]

/-- C11 amended, an instance: the probe of an open circuit at time 20000 runs with
`isOpen = false`, and its success leaves the circuit closed. -/
theorem circuitBreaker_probe_state_witness :
    (circuitBreaker (fun u : Unit => ((Except.ok 42 : Except String Nat), u))
        { circuitBreakerState with isOpen := true, failureCount := 3,
                                   lastFailureTime := some 5 } 20000 20002 ()).stateAtInvoke
      = some { circuitBreakerState with isOpen := false, failureCount := 3,
                                        lastFailureTime := some 5 } ∧
    (circuitBreaker (fun u : Unit => ((Except.ok 42 : Except String Nat), u))
        { circuitBreakerState with isOpen := true, failureCount := 3,
                                   lastFailureTime := some 5 } 20000 20002 ()).state.isOpen
      = false := by
  have h := circuitBreaker_probe_state
    (fun u : Unit => ((Except.ok 42 : Except String Nat), u))
    { circuitBreakerState with isOpen := true, failureCount := 3, lastFailureTime := some 5 }
    20000 20002 () rfl (by decide)
  exact ⟨h.1, h.2.1 42 rfl⟩

/-- C12, as stated, fails. Three failed calls of one wrapped function `f` (the
last failure at time 5) make a call at time 6 of another wrapped function `g`,
whose operation would succeed, throw the circuit-open error without calling
`g`; without the calls of `f` the same call runs `g`. One failed call of `f`
already changes the state that the wrapper of `g` consults. -/
theorem circuitBreaker_shared_state_counterexample :
    (circuitBreaker.callsThen
        (fun u : Unit => ((Except.error "Service B failed" : Except String Nat), u))
        (fun n : Nat => ((Except.ok "pong" : Except String String), n + 1))
        circuitBreakerState () 0 [⟨0, 1⟩, ⟨2, 3⟩, ⟨4, 5⟩] ⟨6, 7⟩).result
      = .error circuitOpenError ∧
    (circuitBreaker.callsThen
        (fun u : Unit => ((Except.error "Service B failed" : Except String Nat), u))
        (fun n : Nat => ((Except.ok "pong" : Except String String), n + 1))
        circuitBreakerState () 0 [⟨0, 1⟩, ⟨2, 3⟩, ⟨4, 5⟩] ⟨6, 7⟩).invocations = 0 ∧
    (circuitBreaker.callsThen
        (fun u : Unit => ((Except.error "Service B failed" : Except String Nat), u))
        (fun n : Nat => ((Except.ok "pong" : Except String String), n + 1))
        circuitBreakerState () 0 [] ⟨6, 7⟩).invocations = 1 ∧
    (circuitBreaker.calls
        (fun u : Unit => ((Except.error "Service B failed" : Except String Nat), u))
        circuitBreakerState () [⟨0, 1⟩]).state ≠ circuitBreakerState := by
  refine ⟨rfl, by decide, by decide, by decide⟩

/-- C12, amended. Every wrapped function consults and updates the one module-level
`circuitBreakerState`. After sequential calls of `circuitBreaker(f)` whose
operation calls all fail, once their number has reached `failureThreshold`, a
call of `circuitBreaker(g)` for any other operation `g`, made while
`now - lastFailureTime ≤ resetTimeout`, throws the circuit-open error and does
not call `g`. -/
theorem circuitBreaker_shared_state {σ τ ε δ α β : Type} (f : σ → Except ε α × σ)
    (g : τ → Except δ β × τ) (hfail : ∀ w, ∃ err, (f w).1 = .error err)
    (wf : σ) (wg : τ) (ts : List CallTimes) (t : CallTimes)
    (hN : (circuitBreaker.calls f circuitBreakerState wf ts).state.failureThreshold ≤
      ((circuitBreaker.calls f circuitBreakerState wf ts).invocations : Int))
    (hcool : t.now - (circuitBreaker.calls f circuitBreakerState wf ts).state.lastFailureNum ≤
      (circuitBreaker.calls f circuitBreakerState wf ts).state.resetTimeout) :
    (circuitBreaker.callsThen f g circuitBreakerState wf wg ts t).result =
      .error circuitOpenError ∧
    (circuitBreaker.callsThen f g circuitBreakerState wf wg ts t).invocations = 0 ∧
    (circuitBreaker.callsThen f g circuitBreakerState wf wg ts t).opState = wg ∧
    (circuitBreaker.callsThen f g circuitBreakerState wf wg ts t).state =
      (circuitBreaker.calls f circuitBreakerState wf ts).state := by
  obtain ⟨h1, _, h3⟩ := calls_failing f hfail ts circuitBreakerState wf
    (by simp [circuitBreakerState])
  have hcount : (circuitBreaker.calls f circuitBreakerState wf ts).state.failureCount =
      ((circuitBreaker.calls f circuitBreakerState wf ts).invocations : Int) := by
    rw [h1]
    simp [circuitBreakerState]
  rw [hcount] at h3
  simp only [circuitBreaker.callsThen]
  rw [circuitBreaker_shortCircuit g _ t.now t.failTime wg (h3.mpr hN) hcool]
  exact ⟨rfl, rfl, rfl, rfl⟩

/-- C12 amended, an instance: three failures of `f`, then `g` at time 10005. -/
theorem circuitBreaker_shared_state_witness :
    (circuitBreaker.callsThen
        (fun u : Unit => ((Except.error "Service B failed" : Except String Nat), u))
        (fun n : Nat => ((Except.ok "pong" : Except String String), n + 1))
        circuitBreakerState () 0 [⟨0, 1⟩, ⟨2, 3⟩, ⟨4, 5⟩] ⟨10005, 10006⟩).result
      = .error circuitOpenError ∧
    (circuitBreaker.callsThen
        (fun u : Unit => ((Except.error "Service B failed" : Except String Nat), u))
        (fun n : Nat => ((Except.ok "pong" : Except String String), n + 1))
        circuitBreakerState () 0 [⟨0, 1⟩, ⟨2, 3⟩, ⟨4, 5⟩] ⟨10005, 10006⟩).invocations = 0 := by
  have h := circuitBreaker_shared_state
    (fun u : Unit => ((Except.error "Service B failed" : Except String Nat), u))
    (fun n : Nat => ((Except.ok "pong" : Except String String), n + 1))
    (fun _ => ⟨_, rfl⟩) () 0 [⟨0, 1⟩, ⟨2, 3⟩, ⟨4, 5⟩] ⟨10005, 10006⟩ (by decide) (by decide)
  exact ⟨h.1, h.2.1⟩

/-- A call that arrives and settles with no other event in between is a sequential
call: the two steps of the event loop leave the state that `circuitBreaker`
leaves, after as many calls of the operation. -/
theorem overlap_sequential {σ ε α : Type} (requestFn : σ → Except ε α × σ)
    (s : CircuitState) (now failTime : Int) (w : σ) :
    (Overlap.run s [CallEvent.arrive now, CallEvent.settled (requestFn w).1 failTime]).state =
      (circuitBreaker requestFn s now failTime w).state ∧
    (Overlap.run s [CallEvent.arrive now, CallEvent.settled (requestFn w).1 failTime]).invocations =
      (circuitBreaker requestFn s now failTime w).invocations ∧
    (Overlap.run s [CallEvent.arrive now, CallEvent.settled (requestFn w).1 failTime]).inFlight =
      0 := by
  cases hg : circuitBreaker.gate (ε := ε) s now with
  | error e => simp [Overlap.run, Overlap.step, circuitBreaker, hg]
  | ok s1 => simp [Overlap.run, Overlap.step, circuitBreaker, hg]

/-- Calls that arrive while the circuit is closed and nothing settles all pass the
gate and call the operation. -/
theorem overlap_arrivals_closed {ε α : Type} :
    ∀ (nows : List Int) (c : Overlap), c.state.isOpen = false →
      (nows.map (CallEvent.arrive (ε := ε) (α := α))).foldl Overlap.step c =
        { c with inFlight := c.inFlight + nows.length,
                 invocations := c.invocations + nows.length } := by
  intro nows
  induction nows with
  | nil => intro c _; rfl
  | cons n ns ih =>
    intro c hc
    simp only [List.map_cons, List.foldl_cons, Overlap.step, gate_closed c.state n hc]
    have hstep := ih (Overlap.mk c.state (c.inFlight + 1) (c.invocations + 1) c.shortCircuited) hc
    rw [hstep]
    simp only [List.length_cons, Overlap.mk.injEq, true_and, and_true]
    constructor <;> omega

/-- C13, as stated, fails. With the circuit open and the cool-down elapsed, a call
arrives at time 20000 and a second one at time 20001 while the first is
waiting for the operation: both call the operation, none is
short-circuited. -/
theorem overlap_probes_counterexample :
    (Overlap.run { circuitBreakerState with isOpen := true, failureCount := 3,
                                            lastFailureTime := some 5 }
        [(CallEvent.arrive 20000 : CallEvent String Nat), CallEvent.arrive 20001]).invocations
      = 2 ∧
    (Overlap.run { circuitBreakerState with isOpen := true, failureCount := 3,
                                            lastFailureTime := some 5 }
        [(CallEvent.arrive 20000 : CallEvent String Nat), CallEvent.arrive 20001]).inFlight
      = 2 ∧
    (Overlap.run { circuitBreakerState with isOpen := true, failureCount := 3,
                                            lastFailureTime := some 5 }
        [(CallEvent.arrive 20000 : CallEvent String Nat), CallEvent.arrive 20001]).shortCircuited
      = 0 := by
  refine ⟨by decide, by decide, by decide⟩

/-- C13, amended. Once the circuit is open and the cool-down has elapsed, the
first call to arrive sets `isOpen = false` at the gate and calls the
operation; every call that arrives before any call in flight has settled finds
the circuit closed, passes the gate and calls the operation as well. So `n`
further arrivals give `n + 1` calls of the operation in flight and no
short-circuited call. -/
theorem overlap_probes_unbounded {ε α : Type} (s : CircuitState) (now : Int)
    (nows : List Int) (hopen : s.isOpen = true)
    (helapsed : now - s.lastFailureNum > s.resetTimeout) :
    Overlap.run s (CallEvent.arrive (ε := ε) (α := α) now :: nows.map CallEvent.arrive) =
      { state := { s with isOpen := false }, inFlight := nows.length + 1,
        invocations := nows.length + 1, shortCircuited := 0 } := by
  simp only [Overlap.run, List.foldl_cons, Overlap.step, gate_probe s now hopen helapsed]
  rw [overlap_arrivals_closed nows _ rfl]
  simp only [Overlap.mk.injEq, true_and, and_true]
  constructor <;> omega

/-- C13 amended, an instance: three overlapping arrivals at an open circuit whose
cool-down has elapsed give three calls of the operation in flight. -/
theorem overlap_probes_unbounded_witness :
    Overlap.run { circuitBreakerState with isOpen := true, failureCount := 3,
                                           lastFailureTime := some 5 }
        [(CallEvent.arrive 20000 : CallEvent String Nat), CallEvent.arrive 20001,
          CallEvent.arrive 20002] =
      { state := { circuitBreakerState with isOpen := false, failureCount := 3,
                                            lastFailureTime := some 5 },
        inFlight := 3, invocations := 3, shortCircuited := 0 } :=
  overlap_probes_unbounded
    { circuitBreakerState with isOpen := true, failureCount := 3, lastFailureTime := some 5 }
    20000 [20001, 20002] rfl (by decide)

/-! ## Retry around the circuit breaker -/

/-- A guarded call that meets the open circuit inside the cool-down, seen as an
operation call: it throws the circuit-open error and changes nothing but the
count of guarded calls. -/
theorem asRequestFn_shortCircuit {σ ε α : Type} (requestFn : σ → Except ε α × σ)
    (clock : Nat → CallTimes) (g : GuardedWorld σ) (hopen : g.circuit.isOpen = true)
    (hcool : (clock g.guardedCalls).now - g.circuit.lastFailureNum ≤ g.circuit.resetTimeout) :
    circuitBreaker.asRequestFn requestFn clock g =
      (.error circuitOpenError, { g with guardedCalls := g.guardedCalls + 1 }) := by
  simp only [circuitBreaker.asRequestFn,
    circuitBreaker_shortCircuit requestFn g.circuit _ _ g.opState hopen hcool, Nat.add_zero]

/-- While every guarded call falls inside the cool-down of an open circuit, `i`
guarded calls in a row change nothing but the count of guarded calls. -/
theorem opStateAfter_shortCircuit {σ ε α : Type} (requestFn : σ → Except ε α × σ)
    (clock : Nat → CallTimes) :
    ∀ (i : Nat) (g : GuardedWorld σ), g.circuit.isOpen = true →
      (∀ j, j < i →
        (clock (g.guardedCalls + j)).now - g.circuit.lastFailureNum ≤ g.circuit.resetTimeout) →
      opStateAfter (circuitBreaker.asRequestFn requestFn clock) i g =
        { g with guardedCalls := g.guardedCalls + i } := by
  intro i
  induction i with
  | zero => intro g _ _; rfl
  | succ i ih =>
    intro g hopen hcool
    have h0 := asRequestFn_shortCircuit requestFn clock g hopen (by simpa using hcool 0 (by omega))
    simp only [opStateAfter, h0]
    rw [ih (GuardedWorld.mk g.circuit g.opState (g.guardedCalls + 1) g.opCalls) hopen
      (fun j hj => by
        have h := hcool (j + 1) (by omega)
        simpa [Nat.add_assoc, Nat.add_comm 1 j] using h)]
    simp only [GuardedWorld.mk.injEq, true_and, and_true]
    omega

/-- Retry around a guarded function whose circuit is open: if each of the
`maxRetries` attempts falls inside the cool-down, every attempt is a guarded
call that short-circuits, and `withRetry` goes on to the next one. -/
theorem withRetry_guarded_shortCircuit {σ ε α : Type} (requestFn : σ → Except ε α × σ)
    (clock : Nat → CallTimes) (g : GuardedWorld σ) (maxRetries delay : Int)
    (hmax : 1 ≤ maxRetries) (hopen : g.circuit.isOpen = true)
    (hcool : ∀ i, i < maxRetries.toNat →
      (clock (g.guardedCalls + i)).now - g.circuit.lastFailureNum ≤ g.circuit.resetTimeout) :
    withRetry (circuitBreaker.asRequestFn requestFn clock) g maxRetries delay =
      { result := .error circuitOpenError,
        opState := { g with guardedCalls := g.guardedCalls + maxRetries.toNat },
        trace := retryTrace delay 0 (maxRetries.toNat - 1) } := by
  obtain ⟨k, hk⟩ : ∃ k : Nat, maxRetries.toNat = k + 1 := ⟨maxRetries.toNat - 1, by omega⟩
  have hout : ∀ i, i < k + 1 →
      nthOutcome (circuitBreaker.asRequestFn requestFn clock) i g = .error circuitOpenError := by
    intro i hi
    simp only [nthOutcome]
    rw [opStateAfter_shortCircuit requestFn clock i g hopen
      (fun j hj => hcool j (by omega))]
    rw [asRequestFn_shortCircuit requestFn clock
      (GuardedWorld.mk g.circuit g.opState (g.guardedCalls + i) g.opCalls) hopen
      (hcool i (by omega))]
  have h := (loop_run (circuitBreaker.asRequestFn requestFn clock) maxRetries delay k 0 g
    (by omega) (fun i hi => ⟨_, hout i (by omega)⟩)).2 circuitOpenError (hout k (by omega))
    (by omega)
  simp only [withRetry, h, hk, Nat.add_sub_cancel]
  rw [opStateAfter_shortCircuit requestFn clock (k + 1) g hopen
    (fun j hj => hcool j (by omega))]

/-- C15, as stated, fails. With the circuit open (last failure at time 5) and
`maxRetries = 3`, attempts at times 100, 1100 and 2100 all fall inside the
cool-down: `withRetry` calls the guarded function 3 times, not once, and waits
2 delays, not none. -/
theorem withRetry_shortCircuit_counterexample :
    (withRetry
        (circuitBreaker.asRequestFn
          (fun n : Nat => ((Except.ok n : Except String Nat), n + 1))
          (fun i => ⟨100 + 1000 * (i : Int), 100 + 1000 * (i : Int)⟩))
        { circuit := { circuitBreakerState with isOpen := true, failureCount := 3,
                                                lastFailureTime := some 5 },
          opState := 0, guardedCalls := 0, opCalls := 0 } 3 1000).invocations = 3 ∧
    (withRetry
        (circuitBreaker.asRequestFn
          (fun n : Nat => ((Except.ok n : Except String Nat), n + 1))
          (fun i => ⟨100 + 1000 * (i : Int), 100 + 1000 * (i : Int)⟩))
        { circuit := { circuitBreakerState with isOpen := true, failureCount := 3,
                                                lastFailureTime := some 5 },
          opState := 0, guardedCalls := 0, opCalls := 0 } 3 1000).delays = 2 := by
  have h := withRetry_guarded_shortCircuit
    (fun n : Nat => ((Except.ok n : Except String Nat), n + 1))
    (fun i => ⟨100 + 1000 * (i : Int), 100 + 1000 * (i : Int)⟩)
    { circuit := { circuitBreakerState with isOpen := true, failureCount := 3,
                                            lastFailureTime := some 5 },
      opState := 0, guardedCalls := 0, opCalls := 0 } 3 1000 (by decide) rfl
    (fun i hi => by
      have hi3 : i < 3 := hi
      simp only [CircuitState.lastFailureNum, circuitBreakerState, Option.getD_some,
        Nat.zero_add]
      omega)
  rw [h]
  exact ⟨rfl, rfl⟩

/-- C15, amended. `withRetry` retries a short-circuit like any other failure. For
every state with `isOpen = true` and every `maxRetries ≥ 1`, if each of the
`maxRetries` attempts falls inside the cool-down, `withRetry` calls the guarded
function exactly `maxRetries` times, waits `maxRetries - 1` delays, and rejects
with the circuit-open error; the operation is never called and the circuit
state is unchanged. -/
theorem withRetry_retries_shortCircuit {σ ε α : Type} (requestFn : σ → Except ε α × σ)
    (clock : Nat → CallTimes) (g : GuardedWorld σ) (maxRetries delay : Int)
    (hmax : 1 ≤ maxRetries) (hopen : g.circuit.isOpen = true)
    (hcool : ∀ i, i < maxRetries.toNat →
      (clock (g.guardedCalls + i)).now - g.circuit.lastFailureNum ≤ g.circuit.resetTimeout) :
    ((withRetry (circuitBreaker.asRequestFn requestFn clock) g maxRetries delay).invocations
        : Int) = maxRetries ∧
    ((withRetry (circuitBreaker.asRequestFn requestFn clock) g maxRetries delay).delays
        : Int) = maxRetries - 1 ∧
    (withRetry (circuitBreaker.asRequestFn requestFn clock) g maxRetries delay).result =
      .error circuitOpenError ∧
    (withRetry (circuitBreaker.asRequestFn requestFn clock) g maxRetries delay).opState.opCalls =
      g.opCalls ∧
    (withRetry (circuitBreaker.asRequestFn requestFn clock) g maxRetries delay).opState.opState =
      g.opState ∧
    (withRetry (circuitBreaker.asRequestFn requestFn clock) g maxRetries delay).opState.circuit =
      g.circuit := by
  rw [withRetry_guarded_shortCircuit requestFn clock g maxRetries delay hmax hopen hcool]
  simp only [RetryRun.invocations, RetryRun.delays, retryTrace_invoked, retryTrace_delayed,
    and_self, and_true]
  constructor <;> omega

/-- C15 amended, an instance with `maxRetries = 2`: two guarded calls, one delay,
the circuit-open error, no call of the operation. -/
theorem withRetry_retries_shortCircuit_witness :
    ((withRetry
        (circuitBreaker.asRequestFn
          (fun n : Nat => ((Except.ok n : Except String Nat), n + 1))
          (fun i => ⟨100 + 1000 * (i : Int), 100 + 1000 * (i : Int)⟩))
        { circuit := { circuitBreakerState with isOpen := true, failureCount := 3,
                                                lastFailureTime := some 5 },
          opState := 0, guardedCalls := 0, opCalls := 0 } 2 1000).invocations : Int) = 2 ∧
    (withRetry
        (circuitBreaker.asRequestFn
          (fun n : Nat => ((Except.ok n : Except String Nat), n + 1))
          (fun i => ⟨100 + 1000 * (i : Int), 100 + 1000 * (i : Int)⟩))
        { circuit := { circuitBreakerState with isOpen := true, failureCount := 3,
                                                lastFailureTime := some 5 },
          opState := 0, guardedCalls := 0, opCalls := 0 } 2 1000).result
      = .error circuitOpenError := by
  have h := withRetry_retries_shortCircuit
    (fun n : Nat => ((Except.ok n : Except String Nat), n + 1))
    (fun i => ⟨100 + 1000 * (i : Int), 100 + 1000 * (i : Int)⟩)
    { circuit := { circuitBreakerState with isOpen := true, failureCount := 3,
                                            lastFailureTime := some 5 },
      opState := 0, guardedCalls := 0, opCalls := 0 } 2 1000 (by decide) rfl
    (fun i hi => by
      have hi2 : i < 2 := hi
      simp only [CircuitState.lastFailureNum, circuitBreakerState, Option.getD_some,
        Nat.zero_add]
      omega)
  exact ⟨h.1, h.2.2.1⟩

/-! ## Failure count along a run -/

/-- A short-circuited call adds nothing to the count of consecutive failures. -/
theorem consecutiveFailures_none (h : List (Option Bool)) :
    consecutiveFailures (h ++ [none]) = consecutiveFailures h := by
  simp [consecutiveFailures, List.filterMap_append]

/-- A successful operation call ends the run of consecutive failures. -/
theorem consecutiveFailures_ok (h : List (Option Bool)) :
    consecutiveFailures (h ++ [some true]) = 0 := by
  simp [consecutiveFailures, List.filterMap_append, List.takeWhile]

/-- A failed operation call extends the run of consecutive failures by one. -/
theorem consecutiveFailures_fail (h : List (Option Bool)) :
    consecutiveFailures (h ++ [some false]) = consecutiveFailures h + 1 := by
  simp [consecutiveFailures, List.filterMap_append, List.takeWhile]

/-- The gate never touches `failureCount`. -/
theorem gate_ok_failureCount {ε : Type} (s s1 : CircuitState) (now : Int)
    (hg : circuitBreaker.gate (ε := ε) s now = .ok s1) : s1.failureCount = s.failureCount := by
  unfold circuitBreaker.gate at hg
  split at hg
  · split at hg
    · cases hg
      rfl
    · cases hg
  · cases hg
    rfl

/-- Along a run of sequential calls that starts in a state whose `failureCount`
is the number of consecutive failures of a history `h`, the final
`failureCount` is that number for `h` extended by the log of the run. -/
theorem calls_failureCount {σ ε α : Type} (requestFn : σ → Except ε α × σ) :
    ∀ (ts : List CallTimes) (s : CircuitState) (w : σ) (h : List (Option Bool)),
      s.failureCount = (consecutiveFailures h : Int) →
      (circuitBreaker.calls requestFn s w ts).state.failureCount =
        (consecutiveFailures (h ++ circuitBreaker.callLog requestFn s w ts) : Int) := by
  intro ts
  induction ts with
  | nil =>
    intro s w h hs
    simpa [circuitBreaker.calls, circuitBreaker.callLog] using hs
  | cons t ts ih =>
    intro s w h hs
    simp only [circuitBreaker.calls, circuitBreaker.callLog]
    cases hg : circuitBreaker.gate (ε := ε) s t.now with
    | error e =>
      have hc : circuitBreaker requestFn s t.now t.failTime w =
          { state := s, result := .error e, opState := w, invocations := 0,
            stateAtInvoke := none } := by
        simp [circuitBreaker, hg]
      rw [hc]
      have hih := ih s w (h ++ [none]) (by rw [consecutiveFailures_none]; exact hs)
      simpa [List.append_assoc] using hih
    | ok s1 =>
      rw [circuitBreaker_of_gate_ok requestFn s s1 t.now t.failTime w hg]
      have hcount := gate_ok_failureCount s s1 t.now hg
      cases hout : (requestFn w).1 with
      | ok v =>
        rw [settle_ok]
        have hih := ih { s1 with failureCount := 0 } (requestFn w).2 (h ++ [some true])
          (by rw [consecutiveFailures_ok]; rfl)
        simpa [List.append_assoc] using hih
      | error err =>
        rw [settle_error]
        have hih := ih
          (if s1.failureCount + 1 ≥ s1.failureThreshold then
            { s1 with failureCount := s1.failureCount + 1, lastFailureTime := some t.failTime,
                      isOpen := true }
          else
            { s1 with failureCount := s1.failureCount + 1, lastFailureTime := some t.failTime })
          (requestFn w).2 (h ++ [some false])
          (by
            rw [consecutiveFailures_fail]
            split <;> simp [hcount, hs])
        simpa [List.append_assoc] using hih

/-- C16. `failureCount` counts consecutive failures. After every run of sequential
guarded calls from the initial state (so after each call of any such
sequence), `failureCount` is the number of operation calls that failed since
the most recent operation call that succeeded, or since the start if none
succeeded. A short-circuited call does not change it, and a call whose
operation succeeds sets it to 0. -/
theorem circuitBreaker_failureCount_consecutive {σ ε α : Type}
    (requestFn : σ → Except ε α × σ) (w : σ) (ts : List CallTimes) :
    (circuitBreaker.calls requestFn circuitBreakerState w ts).state.failureCount =
      (consecutiveFailures (circuitBreaker.callLog requestFn circuitBreakerState w ts) : Int) ∧
    (∀ (s : CircuitState) (now failTime : Int) (w1 : σ),
      (circuitBreaker requestFn s now failTime w1).invocations = 0 →
      (circuitBreaker requestFn s now failTime w1).state.failureCount = s.failureCount) ∧
    (∀ (s : CircuitState) (now failTime : Int) (w1 : σ) (v : α),
      (circuitBreaker requestFn s now failTime w1).result = .ok v →
      (circuitBreaker requestFn s now failTime w1).state.failureCount = 0) := by
  refine ⟨?_, ?_, ?_⟩
  · have h := calls_failureCount requestFn ts circuitBreakerState w [] rfl
    simpa using h
  · intro s now failTime w1
    cases hg : circuitBreaker.gate (ε := ε) s now with
    | error e => simp [circuitBreaker, hg]
    | ok s1 => simp [circuitBreaker, hg]
  · intro s now failTime w1 v
    cases hg : circuitBreaker.gate (ε := ε) s now with
    | error e => simp [circuitBreaker, hg]
    | ok s1 =>
      rw [circuitBreaker_of_gate_ok requestFn s s1 now failTime w1 hg]
      cases hout : (requestFn w1).1 with
      | ok v1 => simp [settle_ok]
      | error err => simp [settle_error]

/-- C16, an instance: the operation fails, fails, succeeds, fails (it succeeds on
its third call only); the log is failure, failure, success, failure and
`failureCount` ends at 1. -/
theorem circuitBreaker_failureCount_consecutive_witness :
    circuitBreaker.callLog
        (fun n : Nat => ((if n = 2 then Except.ok n else Except.error "Service B failed" :
          Except String Nat), n + 1))
        circuitBreakerState 0 [⟨0, 1⟩, ⟨2, 3⟩, ⟨4, 5⟩, ⟨6, 7⟩] =
      [some false, some false, some true, some false] ∧
    (circuitBreaker.calls
        (fun n : Nat => ((if n = 2 then Except.ok n else Except.error "Service B failed" :
          Except String Nat), n + 1))
        circuitBreakerState 0 [⟨0, 1⟩, ⟨2, 3⟩, ⟨4, 5⟩, ⟨6, 7⟩]).state.failureCount = 1 := by
  have hlog : circuitBreaker.callLog
      (fun n : Nat => ((if n = 2 then Except.ok n else Except.error "Service B failed" :
        Except String Nat), n + 1))
      circuitBreakerState 0 [⟨0, 1⟩, ⟨2, 3⟩, ⟨4, 5⟩, ⟨6, 7⟩] =
      [some false, some false, some true, some false] := by decide
  have h := (circuitBreaker_failureCount_consecutive
    (fun n : Nat => ((if n = 2 then Except.ok n else Except.error "Service B failed" :
      Except String Nat), n + 1))
    0 [⟨0, 1⟩, ⟨2, 3⟩, ⟨4, 5⟩, ⟨6, 7⟩]).1
  rw [hlog] at h
  exact ⟨hlog, h⟩

/-! ## Invariant of sequential calls, and a bound that lets nothing through -/

/-- C17. Open implies threshold. In every state reachable from the initial state
by sequential guarded calls, `isOpen = true` implies
`failureCount ≥ failureThreshold` and `lastFailureTime` is not null; put the
other way round, `isOpen` is false whenever `failureCount` is below
`failureThreshold`. -/
theorem circuitBreaker_open_implies_threshold (s : CircuitState) (hreach : Reachable s) :
    (s.isOpen = true → s.failureCount ≥ s.failureThreshold ∧ s.lastFailureTime ≠ none) ∧
    (s.failureCount < s.failureThreshold → s.isOpen = false) := by
  obtain ⟨_, _, hinv⟩ := reachable_inv s hreach
  refine ⟨fun hopen => ⟨(hinv hopen).1, (hinv hopen).2⟩, ?_⟩
  intro hlt
  cases hopen : s.isOpen with
  | false => rfl
  | true =>
    have hge := (hinv hopen).1
    omega

/-- C17, an instance: the state after three failures (open, count 3, last failure
at time 5) and the state after two (closed, count 2) are both reachable. -/
theorem circuitBreaker_open_implies_threshold_witness :
    (Reachable { circuitBreakerState with isOpen := true, failureCount := 3,
                                          lastFailureTime := some 5 } ∧
      ((3 : Int) ≥ circuitBreakerState.failureThreshold ∧ (some 5 : Option Int) ≠ none)) ∧
    Reachable { circuitBreakerState with failureCount := 2, lastFailureTime := some 3 } := by
  have h3 : Reachable { circuitBreakerState with isOpen := true, failureCount := 3,
                                                 lastFailureTime := some 5 } := by
    have h := calls_reachable
      (fun u : Unit => ((Except.error "Service B failed" : Except String Nat), u))
      [⟨0, 1⟩, ⟨2, 3⟩, ⟨4, 5⟩] circuitBreakerState () Reachable.init
    have hs : (circuitBreaker.calls
        (fun u : Unit => ((Except.error "Service B failed" : Except String Nat), u))
        circuitBreakerState () [⟨0, 1⟩, ⟨2, 3⟩, ⟨4, 5⟩]).state =
        { circuitBreakerState with isOpen := true, failureCount := 3,
                                   lastFailureTime := some 5 } := by decide
    rw [hs] at h
    exact h
  have h2 : Reachable { circuitBreakerState with failureCount := 2,
                                                 lastFailureTime := some 3 } := by
    have h := calls_reachable
      (fun u : Unit => ((Except.error "Service B failed" : Except String Nat), u))
      [⟨0, 1⟩, ⟨2, 3⟩] circuitBreakerState () Reachable.init
    have hs : (circuitBreaker.calls
        (fun u : Unit => ((Except.error "Service B failed" : Except String Nat), u))
        circuitBreakerState () [⟨0, 1⟩, ⟨2, 3⟩]).state =
        { circuitBreakerState with failureCount := 2, lastFailureTime := some 3 } := by decide
    rw [hs] at h
    exact h
  exact ⟨⟨h3, (circuitBreaker_open_implies_threshold _ h3).1 rfl⟩, h2⟩

/-- C18. Retry with a non-positive bound. For every `maxRetries ≤ 0` and every
operation, `withRetry` never calls the operation, waits no delay, and resolves
with `undefined`: it returns no result of the operation and raises no
error. -/
theorem withRetry_nonpositive {σ ε α : Type} (requestFn : σ → Except ε α × σ) (w : σ)
    (maxRetries delay : Int) (hmax : maxRetries ≤ 0) :
    (withRetry requestFn w maxRetries delay).result = .ok none ∧
    (withRetry requestFn w maxRetries delay).invocations = 0 ∧
    (withRetry requestFn w maxRetries delay).delays = 0 ∧
    (withRetry requestFn w maxRetries delay).trace = [] ∧
    (withRetry requestFn w maxRetries delay).opState = w := by
  simp only [withRetry, loop_exit requestFn maxRetries delay 0 w (by omega),
    RetryRun.invocations, RetryRun.delays, List.countP_nil, and_self]

/-- C18, an instance: the `/retry` operation under `maxRetries = 0` is not called
and the result is `undefined`. -/
theorem withRetry_nonpositive_witness :
    (withRetry retryDemoOp 0 0 1000).result = .ok none ∧
    (withRetry retryDemoOp 0 (-2) 1000).invocations = 0 :=
  ⟨(withRetry_nonpositive retryDemoOp 0 0 1000 (by decide)).1,
    (withRetry_nonpositive retryDemoOp 0 (-2) 1000 (by decide)).2.1⟩

/-! ## Rate limiter -/

/-- Requests of one client inside its current window, which has admitted `c`
requests so far: the next `max - c` are admitted, all further ones are
rejected with the fixed message, and the window keeps its start. -/
theorem requests_in_window (opts : RateLimitOptions) (t0 : Int) :
    ∀ (rest : List Int) (c : Nat), c ≤ opts.max →
      (∀ t, t ∈ rest → t - t0 < opts.windowMs) →
      rateLimit.requests opts (some { windowStart := t0, count := c }) rest =
        (List.replicate (min rest.length (opts.max - c)) Admission.admitted ++
            List.replicate (rest.length - (opts.max - c)) (Admission.rejected opts.message),
          some { windowStart := t0, count := min (c + rest.length) opts.max }) := by
  intro rest
  induction rest with
  | nil =>
    intro c hc _
    simp [rateLimit.requests, Nat.min_eq_left hc]
  | cons t rest ih =>
    intro c hc hin
    have ht : ¬ (t - t0 ≥ opts.windowMs) := by
      have := hin t (List.mem_cons_self t rest)
      omega
    have hrest : ∀ u, u ∈ rest → u - t0 < opts.windowMs :=
      fun u hu => hin u (List.mem_cons_of_mem t hu)
    by_cases hlt : c < opts.max
    · have hadm : rateLimit.admission opts (some { windowStart := t0, count := c }) t =
          (Admission.admitted, { windowStart := t0, count := c + 1 }) := by
        simp [rateLimit.admission, ht, hlt]
      have h1 : min (rest.length + 1) (opts.max - c) =
          min rest.length (opts.max - (c + 1)) + 1 := by omega
      have h2 : rest.length + 1 - (opts.max - c) = rest.length - (opts.max - (c + 1)) := by
        omega
      have h3 : min (c + (rest.length + 1)) opts.max = min (c + 1 + rest.length) opts.max := by
        omega
      simp only [rateLimit.requests, hadm, ih (c + 1) (by omega) hrest, List.length_cons, h1,
        h2, h3, List.replicate_succ, List.cons_append]
    · have hadm : rateLimit.admission opts (some { windowStart := t0, count := c }) t =
          (Admission.rejected opts.message, { windowStart := t0, count := c }) := by
        simp [rateLimit.admission, ht, hlt]
      have h0 : opts.max - c = 0 := by omega
      have h3 : min (c + (rest.length + 1)) opts.max = min (c + rest.length) opts.max := by
        omega
      simp only [rateLimit.requests, hadm, ih c hc hrest, List.length_cons, h0, h3,
        Nat.min_zero, Nat.sub_zero, List.replicate_zero, List.nil_append,
        List.replicate_succ]

/-- One request never takes the count of a client's window above `max`. -/
theorem admission_count_le (opts : RateLimitOptions) (hmax : 1 ≤ opts.max)
    (window : Option RateLimitWindow) (now : Int)
    (hw : ∀ win, window = some win → win.count ≤ opts.max) :
    (rateLimit.admission opts window now).2.count ≤ opts.max := by
  cases window with
  | none => simpa [rateLimit.admission] using hmax
  | some win =>
    have hc := hw win rfl
    simp only [rateLimit.admission]
    split
    · exact hmax
    · split
      · simp only
        omega
      · exact hc

/-- No sequence of requests of one client takes the count of its window above
`max`. -/
theorem requests_count_le (opts : RateLimitOptions) (hmax : 1 ≤ opts.max) :
    ∀ (times : List Int) (window : Option RateLimitWindow),
      (∀ win, window = some win → win.count ≤ opts.max) →
      ∀ win, (rateLimit.requests opts window times).2 = some win → win.count ≤ opts.max := by
  intro times
  induction times with
  | nil =>
    intro window hw win hfin
    exact hw win hfin
  | cons t rest ih =>
    intro window hw win hfin
    simp only [rateLimit.requests] at hfin
    refine ih (some (rateLimit.admission opts window t).2) ?_ win hfin
    intro w hwe
    cases hwe
    exact admission_count_le opts hmax window t hw

/-- The store keeps the clients apart: a request of client `key` is decided from
that client's window alone and leaves every other client's window as it
was. -/
theorem handle_frame (opts : RateLimitOptions) (store : String → Option RateLimitWindow)
    (key other : String) (now : Int) (hne : other ≠ key) :
    (rateLimit.handle opts store key now).1 = (rateLimit.admission opts (store key) now).1 ∧
    (rateLimit.handle opts store key now).2 key = some (rateLimit.admission opts (store key) now).2 ∧
    (rateLimit.handle opts store key now).2 other = store other := by
  simp [rateLimit.handle, hne]

/-- C14. Rate limiter admission, for the fixed-window limiter with the options of
`apiLimiter` (limit 5, window 15 minutes = 900000 ms). For the requests of one
client that fall into one window (started by the client's first request at
`t0`): the first five are admitted and every later one, the 6th first, is
rejected with 'Too many requests from this IP, please try again after 15
minutes', so at most 5 are admitted; the first request after the window has
elapsed is admitted with the count reset to 1. Whatever the request times, the
count of a client's window never exceeds 5. -/
theorem apiLimiter_admission (t0 : Int) (rest : List Int)
    (hin : ∀ t, t ∈ rest → t - t0 < apiLimiterOptions.windowMs) :
    apiLimiterOptions.windowMs = 15 * 60 * 1000 ∧ apiLimiterOptions.max = 5 ∧
    (rateLimit.requests apiLimiterOptions none (t0 :: rest)).1 =
      List.replicate (min (rest.length + 1) 5) Admission.admitted ++
        List.replicate (rest.length + 1 - 5)
          (Admission.rejected
            "Too many requests from this IP, please try again after 15 minutes") ∧
    (rateLimit.requests apiLimiterOptions none (t0 :: rest)).1.countP Admission.isAdmitted ≤ 5 ∧
    (5 ≤ rest.length →
      (rateLimit.requests apiLimiterOptions none (t0 :: rest)).1[5]? =
        some (Admission.rejected
          "Too many requests from this IP, please try again after 15 minutes")) ∧
    (rateLimit.requests apiLimiterOptions none (t0 :: rest)).2 =
      some { windowStart := t0, count := min (rest.length + 1) 5 } ∧
    (∀ later : Int, later - t0 ≥ apiLimiterOptions.windowMs →
      rateLimit.admission apiLimiterOptions
          (rateLimit.requests apiLimiterOptions none (t0 :: rest)).2 later =
        (Admission.admitted, { windowStart := later, count := 1 })) ∧
    (∀ (times : List Int) (win : RateLimitWindow),
      (rateLimit.requests apiLimiterOptions none times).2 = some win → win.count ≤ 5) := by
  have hrun : rateLimit.requests apiLimiterOptions none (t0 :: rest) =
      (List.replicate (min (rest.length + 1) 5) Admission.admitted ++
          List.replicate (rest.length + 1 - 5)
            (Admission.rejected
              "Too many requests from this IP, please try again after 15 minutes"),
        some { windowStart := t0, count := min (rest.length + 1) 5 }) := by
    have h := requests_in_window apiLimiterOptions t0 rest 1 (by decide) hin
    have hmax : apiLimiterOptions.max = 5 := rfl
    have hmsg : apiLimiterOptions.message =
        "Too many requests from this IP, please try again after 15 minutes" := rfl
    rw [hmax, hmsg] at h
    have h1 : min (rest.length + 1) 5 = min rest.length (5 - 1) + 1 := by omega
    have h2 : rest.length + 1 - 5 = rest.length - (5 - 1) := by omega
    have h3 : min (rest.length + 1) 5 = min (1 + rest.length) 5 := by omega
    simp only [rateLimit.requests, rateLimit.admission, h]
    rw [h1, h2, ← h3, h1]
    simp only [List.replicate_succ, List.cons_append]
  refine ⟨by decide, rfl, ?_, ?_, ?_, ?_, ?_, ?_⟩
  · rw [hrun]
  · rw [hrun]
    simp only [List.countP_append, List.countP_replicate, Admission.isAdmitted]
    simp
  · intro h5
    rw [hrun]
    have hm : min (rest.length + 1) 5 = 5 := by omega
    obtain ⟨k, hk⟩ : ∃ k, rest.length + 1 - 5 = k + 1 := ⟨rest.length - 5, by omega⟩
    simp only [hm, hk]
    simp [List.replicate_succ]
  · rw [hrun]
  · intro later hlater
    rw [hrun]
    simp [rateLimit.admission, hlater]
  · intro times win hfin
    exact requests_count_le apiLimiterOptions (by decide) times none
      (fun w hw => by cases hw) win hfin

/-- C14, an instance: six requests of one client at times 0 to 5 ms; five are
admitted and the 6th is rejected with the fixed message; a request at
900000 ms is admitted with count 1. -/
theorem apiLimiter_admission_witness :
    (rateLimit.requests apiLimiterOptions none [0, 1, 2, 3, 4, 5]).1 =
      [Admission.admitted, Admission.admitted, Admission.admitted, Admission.admitted,
        Admission.admitted,
        Admission.rejected "Too many requests from this IP, please try again after 15 minutes"] ∧
    rateLimit.admission apiLimiterOptions
        (rateLimit.requests apiLimiterOptions none [0, 1, 2, 3, 4, 5]).2 900000 =
      (Admission.admitted, { windowStart := 900000, count := 1 }) := by
  have h := apiLimiter_admission 0 [1, 2, 3, 4, 5] (by decide)
  exact ⟨h.2.2.1, h.2.2.2.2.2.2.1 900000 (by decide)⟩

end ServiceA
